import Mathlib

/-!
# Room & Session Engine of a real-time chess service: a shallow embedding

This file embeds the server-side room engine of the repository
(`server/src/services/RoomManager.ts`, `server/src/services/ChessEngine.ts`,
`server/src/sockets/handlers.ts` and the socket authentication middleware of
the server entry point) as executable Lean definitions, and proves or refutes
the frozen claims about it.

Modelling conventions:
* JavaScript `Map<string, T>` becomes an association list `SMap T` whose
  operations mirror `Map.get`, `Map.set`, `Map.delete`, `Map.has`, `Map.size`.
* `Date.now()` becomes an explicit `now : Nat` parameter (epoch milliseconds);
  each method receives the single wall-clock instant at which it runs.
* Nullable fields become `Option`; JavaScript truthiness tests on numbers
  (`if (x)`) are modelled as "is some and nonzero".
* Clock fields are `Int` (milliseconds); they may become negative before the
  timeout check fires, exactly as in the source.
* The third-party chess rules library (`chess.js`, not part of the
  repository) is an oracle `ChessLib`; the wrapper class `ChessEngine` of the
  repository is translated faithfully on top of it.  The facts the proofs
  need about `chess.js` itself (a successful move hands the turn to the other
  side; the standard initial position has white to move) are isolated in
  `ChessLib.Lawful` and discharged on a concrete test oracle in witnesses.
* The Redis write-through cache is optional in the source (`redis: null`
  configuration); it only mirrors state and never influences results, so the
  embedding models the cache-absent configuration.
-/

/-- Association-list model of a JavaScript `Map<string, α>`:
insertion-ordered entries with unique keys. -/
abbrev SMap (α : Type) : Type := List (String × α)

/-- `Map.get(k)` - first value bound to `k`. -/
def SMap.get? {α : Type} (m : SMap α) (k : String) : Option α :=
  (m.find? (fun p => p.1 = k)).map (·.2)

/-- `Map.set(k, v)` - update the entry in place when the key is present,
append otherwise (JavaScript `Map` keeps insertion order). -/
def SMap.set {α : Type} (m : SMap α) (k : String) (v : α) : SMap α :=
  if m.any (fun p => p.1 = k) then
    m.map (fun p => if p.1 = k then (k, v) else p)
  else
    m ++ [(k, v)]

/-- `Map.delete(k)`. -/
def SMap.del {α : Type} (m : SMap α) (k : String) : SMap α :=
  m.filter (fun p => ¬ p.1 = k)

/-- `Map.has(k)`. -/
def SMap.hasKey {α : Type} (m : SMap α) (k : String) : Bool :=
  m.any (fun p => p.1 = k)

/-- `Map.size`. -/
def SMap.size {α : Type} (m : SMap α) : Nat :=
  m.length

/-- `PlayerColor` of `types/index.ts`: `'white' | 'black'`. -/
inductive PlayerColor : Type
  | white
  | black
deriving DecidableEq, Repr

/-- The color of the other side. -/
def PlayerColor.other : PlayerColor → PlayerColor
  | .white => .black
  | .black => .white

/-- `GameStatus` of `types/index.ts`. -/
inductive GameStatus : Type
  | active
  | checkmate
  | stalemate
  | draw
  | resigned
  | timeout
  | abandoned
deriving DecidableEq, Repr

/-- `RoomState` of `types/index.ts`. -/
inductive RoomState : Type
  | waiting_for_player
  | in_progress
  | finished
deriving DecidableEq, Repr

/-- `PlayerRole` of `types/index.ts`. -/
inductive PlayerRole : Type
  | host
  | opponent
  | spectator
deriving DecidableEq, Repr

/-- `timeControl` settings: seconds of initial time and per-move increment. -/
structure TimeControl : Type where
  initial : Nat
  increment : Nat
deriving DecidableEq, Repr

/-- `RoomSettings` of `types/index.ts`.  The types module itself is not among
the provided sources; the fields are those read and written by
`RoomManager.ts` and `handlers.ts` (`timeControl`, `allowSpectators`,
`allowJoin`, `isPrivate`, `isLocked`, `roomName`), plus `passwordHash`.
Modelled from the spec: `passwordHash` appears only in the specification's
data model (§3) - no code under the provided sources ever reads or writes
it. -/
structure RoomSettings : Type where
  timeControl : Option TimeControl
  allowSpectators : Bool
  allowJoin : Bool
  isPrivate : Bool
  isLocked : Bool
  roomName : Option String := none
  passwordHash : Option String := none
deriving DecidableEq, Repr

/-- `Partial<RoomSettings>`: each field either absent or supplied. -/
structure SettingsPatch : Type where
  timeControl : Option (Option TimeControl) := none
  allowSpectators : Option Bool := none
  allowJoin : Option Bool := none
  isPrivate : Option Bool := none
  isLocked : Option Bool := none
  roomName : Option (Option String) := none
  passwordHash : Option (Option String) := none
deriving DecidableEq, Repr

/-- Object spread `{ ...base, ...patch }` on settings. -/
def SettingsPatch.mergeInto (patch : SettingsPatch) (base : RoomSettings) : RoomSettings :=
  { timeControl := patch.timeControl.getD base.timeControl
    allowSpectators := patch.allowSpectators.getD base.allowSpectators
    allowJoin := patch.allowJoin.getD base.allowJoin
    isPrivate := patch.isPrivate.getD base.isPrivate
    isLocked := patch.isLocked.getD base.isLocked
    roomName := patch.roomName.getD base.roomName
    passwordHash := patch.passwordHash.getD base.passwordHash }

/-- `MoveRecord` of `types/index.ts`, as produced by
`ChessEngine.makeMove`. -/
structure MoveRecord : Type where
  fromSq : String
  toSq : String
  san : String
  fen : String
  timestamp : Nat
  promotion : Option String
deriving DecidableEq, Repr

/-- `GameState` of `types/index.ts`, as produced by
`ChessEngine.createInitialGameState` and mutated by `RoomManager`. -/
structure GameState : Type where
  fen : String
  turn : PlayerColor
  moves : List MoveRecord
  status : GameStatus
  winner : Option PlayerColor
  whiteTime : Option Int
  blackTime : Option Int
  lastMoveAt : Option Nat
  startedAt : Nat
deriving DecidableEq, Repr

/-- `UserSession` of `types/index.ts`, as written by
`RoomManager.registerUserSession`. -/
structure UserSession : Type where
  odId : String
  odName : String
  roomId : String
  role : PlayerRole
  socketId : String
  color : Option PlayerColor
  isConnected : Bool
  disconnectedAt : Option Nat
deriving DecidableEq, Repr

/-- `Room` of `types/index.ts` (spectators: identity ↦ display name). -/
structure Room : Type where
  roomId : String
  hostId : String
  hostName : String
  opponentId : Option String
  opponentName : Option String
  spectators : SMap String
  state : RoomState
  createdAt : Nat
  lastActivity : Nat
  gameState : Option GameState
  settings : RoomSettings
deriving DecidableEq, Repr

/-- The result of one `chess.js` `move()` call: the SAN text, the position
after the move and the promotion piece of the executed move. -/
structure LibMove : Type where
  san : String
  after : String
  promotion : Option String
deriving DecidableEq, Repr

/-- Oracle for the third-party `chess.js` library (not part of the
repository): everything the repository's `ChessEngine` wrapper queries,
as functions of the FEN position the wrapper holds. -/
structure ChessLib : Type where
  move : String → String → String → Option String → Option LibMove
  turn : String → PlayerColor
  isGameOver : String → Bool
  isCheckmate : String → Bool
  isStalemate : String → Bool
  isDraw : String → Bool

/-- FEN of the standard initial position (`new Chess().fen()`). -/
def startFen : String :=
  "rnbqkbnr/pppppppp/8/8/8/8/PPPPPPPP/RNBQKBNR w KQkq - 0 1"

/-- The chess facts the development relies on, true of `chess.js`:
a successful move always hands the turn to the other side, and the standard
initial position has white to move. -/
structure ChessLib.Lawful (lib : ChessLib) : Prop where
  turn_flip : ∀ fen f t p r, lib.move fen f t p = some r →
    lib.turn r.after = (lib.turn fen).other
  turn_start : lib.turn startFen = PlayerColor.white

/-- The repository's `ChessEngine` wrapper: a `chess.js` instance holding a
position.  `new Chess(fen)` is `⟨lib, fen⟩`. -/
structure ChessEngine : Type where
  lib : ChessLib
  fen : String

/-- `ChessEngine.fromGameState`: `new ChessEngine(gameState.fen)`. -/
def ChessEngine.fromGameState (lib : ChessLib) (gs : GameState) : ChessEngine :=
  { lib := lib, fen := gs.fen }

/-- `ChessEngine.getFen`. -/
def ChessEngine.getFen (e : ChessEngine) : String :=
  e.fen

/-- `ChessEngine.getTurn`: `chess.turn() === 'w' ? 'white' : 'black'`. -/
def ChessEngine.getTurn (e : ChessEngine) : PlayerColor :=
  e.lib.turn e.fen

/-- `ChessEngine.makeMove`: validate and apply a move; on success the wrapped
position advances and a `MoveRecord` (timestamped `Date.now()`) is returned. -/
def ChessEngine.mkMove (e : ChessEngine) (fromSq toSq : String)
    (promotion : Option String) (now : Nat) : Option MoveRecord × ChessEngine :=
  match e.lib.move e.fen fromSq toSq promotion with
  | none => (none, e)
  | some r =>
    (some { fromSq := fromSq, toSq := toSq, san := r.san, fen := r.after,
            timestamp := now, promotion := r.promotion },
     { e with fen := r.after })

/-- `ChessEngine.isGameOver`. -/
def ChessEngine.isGameOver (e : ChessEngine) : Bool :=
  e.lib.isGameOver e.fen

/-- `ChessEngine.getGameStatus`: checkmate, else stalemate, else draw, else
active. -/
def ChessEngine.getGameStatus (e : ChessEngine) : GameStatus :=
  if e.lib.isCheckmate e.fen then .checkmate
  else if e.lib.isStalemate e.fen then .stalemate
  else if e.lib.isDraw e.fen then .draw
  else .active

/-- `ChessEngine.getWinner`: on checkmate the player who just moved wins. -/
def ChessEngine.getWinner (e : ChessEngine) : Option PlayerColor :=
  if e.lib.isCheckmate e.fen then
    some (if e.lib.turn e.fen = .white then .black else .white)
  else none

/-- `ChessEngine.createInitialGameState`. -/
def ChessEngine.createInitialGameState (tc : Option TimeControl) (now : Nat) :
    GameState :=
  { fen := startFen
    turn := .white
    moves := []
    status := .active
    winner := none
    whiteTime := tc.map (fun t => (t.initial : Int) * 1000)
    blackTime := tc.map (fun t => (t.initial : Int) * 1000)
    lastMoveAt := none
    startedAt := now }

/-- The mutable state of the server process: the `RoomManager` fields
(`rooms`, `playerRooms`, `userSessions`, `socketToUser`) plus the module-level
`drawOffers` map of `sockets/handlers.ts`. -/
structure ServerState : Type where
  rooms : SMap Room
  playerRooms : SMap String
  userSessions : SMap UserSession
  socketToUser : SMap String
  drawOffers : SMap String
deriving DecidableEq, Repr

/-- The empty server state at process start. -/
def ServerState.init : ServerState :=
  { rooms := [], playerRooms := [], userSessions := [], socketToUser := [],
    drawOffers := [] }

/-- `RoomManager.registerUserSession`. -/
def RoomManager.registerUserSession (st : ServerState) (odId odName roomId : String)
    (role : PlayerRole) (socketId : String) (color : Option PlayerColor) :
    ServerState :=
  let session : UserSession :=
    { odId := odId, odName := odName, roomId := roomId, role := role,
      socketId := socketId, color := color, isConnected := true,
      disconnectedAt := none }
  { st with userSessions := SMap.set st.userSessions odId session
            socketToUser := SMap.set st.socketToUser socketId odId }

/-- `RoomManager.removeUserSession`. -/
def RoomManager.removeUserSession (st : ServerState) (odId : String) : ServerState :=
  match SMap.get? st.userSessions odId with
  | none => st
  | some session =>
    { st with socketToUser := SMap.del st.socketToUser session.socketId
              userSessions := SMap.del st.userSessions odId }

/-- `RoomManager.createRoom`.  The generated `roomId` (uuid fragment) is an
explicit parameter. -/
def RoomManager.createRoom (st : ServerState) (roomId hostId hostName : String)
    (settings : SettingsPatch) (odId : Option String) (now : Nat) :
    Room × ServerState :=
  let defaultSettings : RoomSettings := settings.mergeInto
    { timeControl := none, allowSpectators := true, allowJoin := true,
      isPrivate := false, isLocked := false }
  let persistentHostId := odId.getD hostId
  let room : Room :=
    { roomId := roomId, hostId := persistentHostId, hostName := hostName,
      opponentId := none, opponentName := none, spectators := [],
      state := .waiting_for_player, createdAt := now, lastActivity := now,
      gameState := none, settings := defaultSettings }
  let st1 := { st with rooms := SMap.set st.rooms roomId room
                       playerRooms := SMap.set st.playerRooms hostId roomId }
  let st2 := match odId with
    | some uid =>
      RoomManager.registerUserSession st1 uid hostName roomId .host hostId
        (some .white)
    | none => st1
  (room, st2)

/-- `RoomManager.joinRoom`. -/
def RoomManager.joinRoom (st : ServerState) (roomId playerId playerName : String)
    (odId : Option String) (now : Nat) :
    Option (Room × PlayerColor) × ServerState :=
  match SMap.get? st.rooms roomId with
  | none => (none, st)
  | some room =>
    if room.state ≠ .waiting_for_player then (none, st)
    else if room.opponentId ≠ none then (none, st)
    else
      let persistentPlayerId := odId.getD playerId
      if room.hostId = persistentPlayerId then (none, st)
      else if !room.settings.allowJoin then (none, st)
      else if room.settings.isLocked then (none, st)
      else
        let room' : Room :=
          { room with opponentId := some persistentPlayerId
                      opponentName := some playerName
                      state := .in_progress
                      lastActivity := now
                      gameState := some (ChessEngine.createInitialGameState
                        room.settings.timeControl now) }
        let st1 := { st with rooms := SMap.set st.rooms roomId room'
                             playerRooms := SMap.set st.playerRooms playerId roomId }
        let st2 := match odId with
          | some uid =>
            RoomManager.registerUserSession st1 uid playerName roomId .opponent
              playerId (some .black)
          | none => st1
        (some (room', .black), st2)

/-- `RoomManager.spectateRoom`. -/
def RoomManager.spectateRoom (st : ServerState)
    (roomId spectatorId spectatorName : String) (odId : Option String)
    (now : Nat) : Option Room × ServerState :=
  match SMap.get? st.rooms roomId with
  | none => (none, st)
  | some room =>
    if !room.settings.allowSpectators then (none, st)
    else
      let persistentId := odId.getD spectatorId
      let room' : Room :=
        { room with spectators := SMap.set room.spectators persistentId spectatorName
                    lastActivity := now }
      let st1 := { st with rooms := SMap.set st.rooms roomId room' }
      let st2 := match odId with
        | some uid =>
          RoomManager.registerUserSession st1 uid spectatorName roomId .spectator
            spectatorId none
        | none => st1
      (some room', st2)

/-- Result record of `RoomManager.leaveRoom`. -/
structure LeaveResult : Type where
  room : Option Room
  wasPlayer : Bool
  shouldEndGame : Bool
deriving DecidableEq, Repr

/-- `RoomManager.leaveRoom`. -/
def RoomManager.leaveRoom (st : ServerState) (socketId : String)
    (odId : Option String) : LeaveResult × ServerState :=
  let persistentId := odId.getD socketId
  let roomBySocket : Option Room :=
    (SMap.get? st.playerRooms socketId).bind (SMap.get? st.rooms)
  let foundRoom : Option Room :=
    match roomBySocket, odId with
    | none, some uid =>
      (SMap.get? st.userSessions uid).bind
        (fun session => SMap.get? st.rooms session.roomId)
    | r, _ => r
  match foundRoom with
  | none =>
    match st.rooms.find? (fun p => SMap.hasKey p.2.spectators persistentId) with
    | some (rId, r) =>
      let r' := { r with spectators := SMap.del r.spectators persistentId }
      let st1 := { st with rooms := SMap.set st.rooms rId r' }
      let st2 := match odId with
        | some uid => RoomManager.removeUserSession st1 uid
        | none => st1
      ({ room := some r', wasPlayer := false, shouldEndGame := false }, st2)
    | none =>
      ({ room := none, wasPlayer := false, shouldEndGame := false }, st)
  | some room =>
    let wasHost := room.hostId = persistentId
    let wasOpponent := room.opponentId = some persistentId
    let wasPlayer := wasHost ∨ wasOpponent
    let afterRoomUpdate : Option Room × ServerState :=
      if wasPlayer ∧ room.state = .in_progress then
        let room' : Room :=
          { room with gameState := room.gameState.map (fun gs =>
              { gs with status := .abandoned
                        winner := some (if wasHost then .black else .white) })
                      state := .finished }
        (some room', { st with rooms := SMap.set st.rooms room.roomId room' })
      else if room.state = .waiting_for_player ∧ wasHost then
        (some room, { st with rooms := SMap.del st.rooms room.roomId })
      else
        (some room, st)
    let st1 := afterRoomUpdate.2
    let st2 := { st1 with playerRooms := SMap.del st1.playerRooms socketId }
    let st3 := match odId with
      | some uid => RoomManager.removeUserSession st2 uid
      | none => st2
    ({ room := afterRoomUpdate.1
       wasPlayer := decide wasPlayer
       shouldEndGame := decide (wasPlayer ∧ room.state = .in_progress) }, st3)

/-- Result record of `RoomManager.makeMove`. -/
structure MoveOutcome : Type where
  success : Bool
  move : Option MoveRecord
  gameState : Option GameState
  error : Option String
deriving DecidableEq, Repr

/-- A failed `makeMove` acknowledgement. -/
def MoveOutcome.fail (msg : String) : MoveOutcome :=
  { success := false, move := none, gameState := none, error := some msg }

/-- The clock-charge block of `makeMove` (`if (room.settings.timeControl &&
room.gameState.lastMoveAt)`): subtract the elapsed wall time from the
mover's clock, add the increment, and on a result ≤ 0 flag the game as a
timeout loss and the room as finished.  Returns the updated game state and
room state. -/
def RoomManager.chargeClock (settings : RoomSettings) (gs : GameState)
    (playerColor : PlayerColor) (roomState : RoomState) (now : Nat) :
    GameState × RoomState :=
  match settings.timeControl, gs.lastMoveAt with
  | some tc, some lm =>
    if lm ≠ 0 then
      let elapsed : Int := (now : Int) - (lm : Int)
      if playerColor = .white then
        match gs.whiteTime with
        | some wt =>
          let wt' := wt - elapsed + (tc.increment : Int) * 1000
          if wt' ≤ 0 then
            ({ gs with whiteTime := some wt', status := .timeout,
                       winner := some .black }, .finished)
          else ({ gs with whiteTime := some wt' }, roomState)
        | none => (gs, roomState)
      else
        match gs.blackTime with
        | some bt =>
          let bt' := bt - elapsed + (tc.increment : Int) * 1000
          if bt' ≤ 0 then
            ({ gs with blackTime := some bt', status := .timeout,
                       winner := some .white }, .finished)
          else ({ gs with blackTime := some bt' }, roomState)
        | none => (gs, roomState)
    else (gs, roomState)
  | _, _ => (gs, roomState)

/-- The write-back block of `makeMove`: store the new position, hand over the
turn, append the move record, stamp `lastMoveAt`, then apply the terminal
check (`engine.isGameOver()`). -/
def RoomManager.finishMove (engine' : ChessEngine) (move : MoveRecord)
    (charged : GameState × RoomState) (now : Nat) : GameState × RoomState :=
  let gs2 : GameState :=
    { charged.1 with fen := ChessEngine.getFen engine'
                     turn := ChessEngine.getTurn engine'
                     moves := charged.1.moves ++ [move]
                     lastMoveAt := some now }
  if ChessEngine.isGameOver engine' then
    ({ gs2 with status := ChessEngine.getGameStatus engine'
                winner := ChessEngine.getWinner engine' }, .finished)
  else (gs2, charged.2)

/-- `RoomManager.makeMove`: guards, chess validation, clock charge, state
update, terminal check - translated from the source with the two inner
blocks factored into `chargeClock` and `finishMove`. -/
def RoomManager.makeMove (lib : ChessLib) (st : ServerState)
    (roomId socketId fromSq toSq : String) (promotion : Option String)
    (odId : Option String) (now : Nat) : MoveOutcome × ServerState :=
  match SMap.get? st.rooms roomId with
  | none => (MoveOutcome.fail "Room not found", st)
  | some room =>
    if room.state ≠ .in_progress then
      (MoveOutcome.fail "Game not in progress", st)
    else
      match room.gameState with
      | none => (MoveOutcome.fail "Game state not found", st)
      | some gs =>
        let persistentId := odId.getD socketId
        let isHost := room.hostId = persistentId
        let isOpponent := room.opponentId = some persistentId
        if ¬ isHost ∧ ¬ isOpponent then
          (MoveOutcome.fail "Not a player in this game", st)
        else
          let playerColor : PlayerColor := if isHost then .white else .black
          if gs.turn ≠ playerColor then
            (MoveOutcome.fail "Not your turn", st)
          else
            let engine := ChessEngine.fromGameState lib gs
            match ChessEngine.mkMove engine fromSq toSq promotion now with
            | (none, _) => (MoveOutcome.fail "Invalid move", st)
            | (some move, engine') =>
              let final : GameState × RoomState :=
                RoomManager.finishMove engine' move
                  (RoomManager.chargeClock room.settings gs playerColor
                    room.state now) now
              let room' : Room :=
                { room with gameState := some final.1, state := final.2,
                            lastActivity := now }
              ({ success := true, move := some move, gameState := some final.1,
                 error := none },
               { st with rooms := SMap.set st.rooms roomId room' })

/-- `RoomManager.resign`. -/
def RoomManager.resign (st : ServerState) (roomId socketId : String)
    (odId : Option String) (now : Nat) : Option GameState × ServerState :=
  match SMap.get? st.rooms roomId with
  | none => (none, st)
  | some room =>
    if room.state ≠ .in_progress then (none, st)
    else
      match room.gameState with
      | none => (none, st)
      | some gs =>
        let persistentId := odId.getD socketId
        let isHost := room.hostId = persistentId
        let isOpponent := room.opponentId = some persistentId
        if ¬ isHost ∧ ¬ isOpponent then (none, st)
        else
          let gs' : GameState :=
            { gs with status := .resigned
                      winner := some (if isHost then .black else .white) }
          let room' : Room :=
            { room with gameState := some gs', state := .finished,
                        lastActivity := now }
          (some gs', { st with rooms := SMap.set st.rooms roomId room' })

/-- `RoomManager.drawGame`. -/
def RoomManager.drawGame (st : ServerState) (roomId : String) (now : Nat) :
    Option GameState × ServerState :=
  match SMap.get? st.rooms roomId with
  | none => (none, st)
  | some room =>
    if room.state ≠ .in_progress then (none, st)
    else
      match room.gameState with
      | none => (none, st)
      | some gs =>
        let gs' : GameState := { gs with status := .draw, winner := none }
        let room' : Room :=
          { room with gameState := some gs', state := .finished,
                      lastActivity := now }
        (some gs', { st with rooms := SMap.set st.rooms roomId room' })

/-- Result record of `RoomManager.kickSpectator`. -/
structure KickResult : Type where
  success : Bool
  reason : Option String
deriving DecidableEq, Repr

/-- `RoomManager.kickSpectator` (host only; only spectators can be kicked). -/
def RoomManager.kickSpectator (st : ServerState)
    (roomId hostId targetSpectatorId : String) : KickResult × ServerState :=
  match SMap.get? st.rooms roomId with
  | none => ({ success := false, reason := some "Room not found" }, st)
  | some room =>
    if room.hostId ≠ hostId then
      ({ success := false, reason := some "Only host can kick" }, st)
    else if targetSpectatorId = hostId then
      ({ success := false, reason := some "Cannot kick yourself" }, st)
    else if room.opponentId = some targetSpectatorId then
      ({ success := false,
         reason := some "Cannot kick players. Only spectators can be kicked." }, st)
    else if SMap.hasKey room.spectators targetSpectatorId then
      let room' : Room :=
        { room with spectators := SMap.del room.spectators targetSpectatorId }
      let st1 := { st with rooms := SMap.set st.rooms roomId room' }
      let st2 := RoomManager.removeUserSession st1 targetSpectatorId
      ({ success := true, reason := none }, st2)
    else
      ({ success := false, reason := some "Spectator not found" }, st)

/-- `RoomManager.setRoomLocked` (host only; no password parameter exists). -/
def RoomManager.setRoomLocked (st : ServerState) (roomId hostId : String)
    (locked : Bool) (now : Nat) : Bool × ServerState :=
  match SMap.get? st.rooms roomId with
  | none => (false, st)
  | some room =>
    if room.hostId ≠ hostId then (false, st)
    else
      let room' : Room :=
        { room with settings := { room.settings with isLocked := locked }
                    lastActivity := now }
      (true, { st with rooms := SMap.set st.rooms roomId room' })

/-- `RoomManager.updateRoomSettings` (host only; spread-merges the patch). -/
def RoomManager.updateRoomSettings (st : ServerState) (roomId hostId : String)
    (settings : SettingsPatch) (now : Nat) : Bool × ServerState :=
  match SMap.get? st.rooms roomId with
  | none => (false, st)
  | some room =>
    if room.hostId ≠ hostId then (false, st)
    else
      let room' : Room :=
        { room with settings := settings.mergeInto room.settings
                    lastActivity := now }
      (true, { st with rooms := SMap.set st.rooms roomId room' })

/-- `RoomManager.getPlayerColor`: host is white, opponent is black. -/
def RoomManager.getPlayerColor (st : ServerState) (roomId playerId : String) :
    Option PlayerColor :=
  match SMap.get? st.rooms roomId with
  | none => none
  | some room =>
    if room.hostId = playerId then some .white
    else if room.opponentId = some playerId then some .black
    else none

/-- Acknowledgement envelope `{ success, error? }`. -/
structure BaseResponse : Type where
  success : Bool
  error : Option String := none
deriving DecidableEq, Repr

/-- The `game:offer-draw` socket handler: requires an in-progress room and a
player; records the offerer in the module-level `drawOffers` map. -/
def Handlers.offerDraw (st : ServerState) (roomId socketId : String)
    (odId : Option String) : BaseResponse × ServerState :=
  let persistentId := odId.getD socketId
  match SMap.get? st.rooms roomId with
  | none => ({ success := false, error := some "Cannot offer draw" }, st)
  | some room =>
    if room.state ≠ .in_progress then
      ({ success := false, error := some "Cannot offer draw" }, st)
    else if ¬ (room.hostId = persistentId ∨ room.opponentId = some persistentId) then
      ({ success := false, error := some "Not a player" }, st)
    else
      ({ success := true },
       { st with drawOffers := SMap.set st.drawOffers roomId persistentId })

/-- The `game:accept-draw` socket handler: requires a pending offer from
someone else, an in-progress room and a player; ends the game through
`RoomManager.drawGame` and clears the offer slot. -/
def Handlers.acceptDraw (st : ServerState) (roomId socketId : String)
    (odId : Option String) (now : Nat) : BaseResponse × ServerState :=
  let persistentId := odId.getD socketId
  match SMap.get? st.drawOffers roomId with
  | none => ({ success := false, error := some "No draw offer to accept" }, st)
  | some offerer =>
    if offerer = persistentId then
      ({ success := false, error := some "Cannot accept your own draw offer" }, st)
    else
      match SMap.get? st.rooms roomId with
      | none => ({ success := false, error := some "Game is not in progress" }, st)
      | some room =>
        if room.state ≠ .in_progress then
          ({ success := false, error := some "Game is not in progress" }, st)
        else if ¬ (room.hostId = persistentId ∨ room.opponentId = some persistentId) then
          ({ success := false, error := some "Only players can accept draw offers" }, st)
        else
          match RoomManager.drawGame st roomId now with
          | (none, st1) => ({ success := false, error := some "Cannot accept draw" }, st1)
          | (some _, st1) =>
            ({ success := true },
             { st1 with drawOffers := SMap.del st1.drawOffers roomId })

/-- The `game:decline-draw` socket handler: unconditionally clears the offer
slot for the given roomId and acknowledges success.  It never consults the
caller's identity, the room, or whether an offer is pending. -/
def Handlers.declineDraw (st : ServerState) (roomId : String)
    (_socketId : String) (_odId : Option String) : BaseResponse × ServerState :=
  ({ success := true, error := none },
   { st with drawOffers := SMap.del st.drawOffers roomId })

/-- The `room:kick` socket handler.  Its body calls
`roomManager.kickPlayer(payload.roomId, socket.id, payload.playerId)`, but
`RoomManager` defines no `kickPlayer` method (only `kickSpectator`); at
runtime the call throws `TypeError: roomManager.kickPlayer is not a
function`, the handler's `catch` fires, and the acknowledgement is
`{ success: false, error: 'Failed to kick player' }` with no state change. -/
def Handlers.roomKick (st : ServerState) (_roomId _socketId _targetId : String) :
    BaseResponse × ServerState :=
  ({ success := false, error := some "Failed to kick player" }, st)

/-- `SocketAuthData` (`socket.data`).  The types module is not among the
provided sources; the fields are those the middleware writes (`userId`,
`username`) and `handlers.ts` reads (`userId`, `isGuest`).  A fresh socket
starts with all fields unset. -/
structure SocketAuthData : Type where
  userId : Option String := none
  username : Option String := none
  isGuest : Option Bool := none
deriving DecidableEq, Repr

/-- The handshake auth payload the client supplies:
`{ token }` or `{ guestId }`. -/
structure HandshakeAuth : Type where
  token : Option String := none
  guestId : Option String := none
deriving DecidableEq, Repr

/-- A verified access-token claim. -/
structure DecodedToken : Type where
  userId : String
  username : String
deriving DecidableEq, Repr

/-- The Socket.IO authentication middleware (`io.use`) of the server entry
point: reads only the token (from the auth object, authorization header or
query, collapsed here into one optional token); when a non-empty token is
present, the auth service is configured and verification succeeds, it
attaches `userId`/`username` to `socket.data`.  In every other case -
including a connection that supplies a `guestId` - `socket.data` is left
empty; the middleware never reads `guestId` and never rejects the
connection. -/
def socketAuthMiddleware (verifyAccessToken : String → Option DecodedToken)
    (authServiceEnabled : Bool) (hs : HandshakeAuth) : SocketAuthData :=
  match hs.token with
  | some t =>
    if t ≠ "" then
      if authServiceEnabled then
        match verifyAccessToken t with
        | some d => { userId := some d.userId, username := some d.username }
        | none => {}
      else {}
    else {}
  | none => {}

/-- `getPlayerId` of `sockets/handlers.ts` composed with the ubiquitous
`const persistentId = odId || socketId`: the identity every room operation
uses for a connection. -/
def effectiveIdentity (data : SocketAuthData) (socketId : String) : String :=
  data.userId.getD socketId

/-- One externally triggerable mutation of the server state: the
`RoomManager` operations, the draw-negotiation handlers and the (broken)
kick handler, each carrying the request arguments and the wall clock. -/
inductive Op : Type
  | createRoom (roomId hostId hostName : String) (settings : SettingsPatch)
      (odId : Option String) (now : Nat)
  | joinRoom (roomId playerId playerName : String) (odId : Option String)
      (now : Nat)
  | spectateRoom (roomId spectatorId spectatorName : String)
      (odId : Option String) (now : Nat)
  | leaveRoom (socketId : String) (odId : Option String)
  | makeMove (roomId socketId fromSq toSq : String) (promotion : Option String)
      (odId : Option String) (now : Nat)
  | resign (roomId socketId : String) (odId : Option String) (now : Nat)
  | offerDraw (roomId socketId : String) (odId : Option String)
  | acceptDraw (roomId socketId : String) (odId : Option String) (now : Nat)
  | declineDraw (roomId socketId : String) (odId : Option String)
  | roomKick (roomId socketId targetId : String)
  | kickSpectator (roomId hostId targetId : String)
  | setRoomLocked (roomId hostId : String) (locked : Bool) (now : Nat)
  | updateRoomSettings (roomId hostId : String) (settings : SettingsPatch)
      (now : Nat)

/-- The state transition each operation performs. -/
def Op.step (lib : ChessLib) (st : ServerState) : Op → ServerState
  | .createRoom roomId hostId hostName settings odId now =>
    (RoomManager.createRoom st roomId hostId hostName settings odId now).2
  | .joinRoom roomId playerId playerName odId now =>
    (RoomManager.joinRoom st roomId playerId playerName odId now).2
  | .spectateRoom roomId spectatorId spectatorName odId now =>
    (RoomManager.spectateRoom st roomId spectatorId spectatorName odId now).2
  | .leaveRoom socketId odId =>
    (RoomManager.leaveRoom st socketId odId).2
  | .makeMove roomId socketId fromSq toSq promotion odId now =>
    (RoomManager.makeMove lib st roomId socketId fromSq toSq promotion odId now).2
  | .resign roomId socketId odId now =>
    (RoomManager.resign st roomId socketId odId now).2
  | .offerDraw roomId socketId odId =>
    (Handlers.offerDraw st roomId socketId odId).2
  | .acceptDraw roomId socketId odId now =>
    (Handlers.acceptDraw st roomId socketId odId now).2
  | .declineDraw roomId socketId odId =>
    (Handlers.declineDraw st roomId socketId odId).2
  | .roomKick roomId socketId targetId =>
    (Handlers.roomKick st roomId socketId targetId).2
  | .kickSpectator roomId hostId targetId =>
    (RoomManager.kickSpectator st roomId hostId targetId).2
  | .setRoomLocked roomId hostId locked now =>
    (RoomManager.setRoomLocked st roomId hostId locked now).2
  | .updateRoomSettings roomId hostId settings now =>
    (RoomManager.updateRoomSettings st roomId hostId settings now).2

/-- The server states reachable from process start through the operations. -/
inductive Reachable (lib : ChessLib) : ServerState → Prop
  | init : Reachable lib ServerState.init
  | step (st : ServerState) (op : Op) :
      Reachable lib st → Reachable lib (Op.step lib st op)

/-- The per-room structural invariant (spec §8): an in-progress room has an
opponent distinct from the host and an active embedded game, and a
non-active game only lives in a finished room. -/
def RoomGood (room : Room) : Prop :=
  (room.state = .in_progress →
    (∃ oid, room.opponentId = some oid ∧ oid ≠ room.hostId) ∧
    (∃ gs, room.gameState = some gs ∧ gs.status = .active)) ∧
  (∀ gs, room.gameState = some gs → gs.status ≠ .active →
    room.state = .finished)

/-- All rooms of a room map satisfy `RoomGood`. -/
def RoomsGood (rooms : SMap Room) : Prop :=
  ∀ p ∈ rooms, RoomGood p.2

/-- The server-state instance of the structural invariant. -/
def RoomInvariant (st : ServerState) : Prop :=
  RoomsGood st.rooms

/-- The cached `turn` of every embedded game agrees with the side to move of
its position. -/
def RoomsTurnOK (lib : ChessLib) (rooms : SMap Room) : Prop :=
  ∀ p ∈ rooms, ∀ gs, (p : String × Room).2.gameState = some gs →
    gs.turn = lib.turn gs.fen

/-- The server-state instance of turn coherence. -/
def TurnCoherent (lib : ChessLib) (st : ServerState) : Prop :=
  RoomsTurnOK lib st.rooms

theorem SMap.find?_update {α : Type} (m : SMap α) (k : String) (v : α)
    (h : m.any (fun p => p.1 = k) = true) :
    (m.map (fun p => if p.1 = k then (k, v) else p)).find?
      (fun p => p.1 = k) = some (k, v) := by
  induction m with
  | nil => simp at h
  | cons p t ih =>
    by_cases hp : p.1 = k
    · simp [List.find?_cons_of_pos, hp]
    · have ht : t.any (fun q => q.1 = k) = true := by
        simpa [hp] using h
      simp only [List.map_cons, if_neg hp]
      rw [List.find?_cons_of_neg _ (by simpa using hp)]
      exact ih ht

theorem SMap.find?_update_other {α : Type} (m : SMap α) (k k' : String) (v : α)
    (h : k' ≠ k) :
    (m.map (fun p => if p.1 = k then (k, v) else p)).find?
      (fun p => p.1 = k') = m.find? (fun p => p.1 = k') := by
  induction m with
  | nil => simp
  | cons p t ih =>
    by_cases hp : p.1 = k
    · have hp' : ¬ p.1 = k' := by
        rw [hp]; exact fun hh => h hh.symm
      simp only [List.map_cons, if_pos hp]
      rw [List.find?_cons_of_neg _ (by simpa using Ne.symm h),
          List.find?_cons_of_neg _ (by simpa using hp')]
      exact ih
    · simp only [List.map_cons, if_neg hp]
      by_cases hq : p.1 = k'
      · rw [List.find?_cons_of_pos _ (by simpa using hq),
            List.find?_cons_of_pos _ (by simpa using hq)]
      · rw [List.find?_cons_of_neg _ (by simpa using hq),
            List.find?_cons_of_neg _ (by simpa using hq)]
        exact ih

theorem SMap.find?_no_key {α : Type} (m : SMap α) (k : String)
    (h : m.any (fun p => p.1 = k) = false) :
    m.find? (fun p => p.1 = k) = none := by
  induction m with
  | nil => simp
  | cons p t ih =>
    have hp : ¬ p.1 = k := by
      intro hk
      simp [hk] at h
    have ht : t.any (fun q => q.1 = k) = false := by
      simpa [hp] using h
    rw [List.find?_cons_of_neg _ (by simpa using hp)]
    exact ih ht

theorem SMap.get?_set_self {α : Type} (m : SMap α) (k : String) (v : α) :
    SMap.get? (SMap.set m k v) k = some v := by
  unfold SMap.set
  by_cases h : m.any (fun p => p.1 = k) = true
  · rw [if_pos h]
    unfold SMap.get?
    rw [SMap.find?_update m k v h]
    rfl
  · rw [if_neg h]
    unfold SMap.get?
    rw [List.find?_append]
    rw [SMap.find?_no_key m k (by simpa only [Bool.not_eq_true] using h)]
    simp

theorem SMap.get?_set_ne {α : Type} (m : SMap α) (k k' : String) (v : α)
    (h : k' ≠ k) : SMap.get? (SMap.set m k v) k' = SMap.get? m k' := by
  unfold SMap.set SMap.get?
  by_cases hany : m.any (fun p => p.1 = k) = true
  · rw [if_pos hany]
    rw [SMap.find?_update_other m k k' v h]
  · rw [if_neg hany]
    rw [List.find?_append]
    have hsing : List.find? (fun p => p.1 = k') [(k, v)] = none := by
      simp [Ne.symm h]
    rw [hsing]
    cases List.find? (fun p => decide (p.1 = k')) m <;> simp

theorem SMap.get?_del_self {α : Type} (m : SMap α) (k : String) :
    SMap.get? (SMap.del m k) k = none := by
  unfold SMap.del SMap.get?
  have hfind : List.find? (fun p => p.1 = k)
      (m.filter (fun p => ¬ p.1 = k)) = none := by
    rw [List.find?_eq_none]
    intro p hp
    simpa using List.of_mem_filter hp
  rw [hfind]
  rfl

theorem SMap.get?_del_ne {α : Type} (m : SMap α) (k k' : String) (h : k' ≠ k) :
    SMap.get? (SMap.del m k) k' = SMap.get? m k' := by
  unfold SMap.del SMap.get?
  congr 1
  induction m with
  | nil => simp
  | cons p t ih =>
    by_cases hp : p.1 = k
    · have hp' : ¬ p.1 = k' := by rw [hp]; exact fun hh => h hh.symm
      rw [List.filter_cons_of_neg (by simpa using hp)]
      rw [List.find?_cons_of_neg _ (by simpa using hp')]
      exact ih
    · rw [List.filter_cons_of_pos (by simpa using hp)]
      by_cases hq : p.1 = k'
      · rw [List.find?_cons_of_pos _ (by simpa using hq),
            List.find?_cons_of_pos _ (by simpa using hq)]
      · rw [List.find?_cons_of_neg _ (by simpa using hq),
            List.find?_cons_of_neg _ (by simpa using hq)]
        exact ih

theorem SMap.hasKey_set_self {α : Type} (m : SMap α) (k : String) (v : α) :
    SMap.hasKey (SMap.set m k v) k = true := by
  unfold SMap.hasKey SMap.set
  by_cases h : m.any (fun p => p.1 = k) = true
  · rw [if_pos h]
    induction m with
    | nil => simp at h
    | cons p t ih =>
      by_cases hp : p.1 = k
      · simp [hp]
      · have ht : t.any (fun q => q.1 = k) = true := by simpa [hp] using h
        simp only [List.map_cons, if_neg hp, List.any_cons]
        rw [ih ht]
        simp
  · rw [if_neg h]
    simp

theorem SMap.size_set_of_hasKey {α : Type} (m : SMap α) (k : String) (v : α)
    (h : SMap.hasKey m k = true) : SMap.size (SMap.set m k v) = SMap.size m := by
  unfold SMap.hasKey at h
  unfold SMap.size SMap.set
  rw [if_pos h]
  simp

theorem SMap.set_set_same {α : Type} (m : SMap α) (k : String) (v : α) :
    SMap.set (SMap.set m k v) k v = SMap.set m k v := by
  have hupd : ∀ (l : SMap α),
      (l.map (fun p => if p.1 = k then (k, v) else p)).map
        (fun p => if p.1 = k then (k, v) else p)
      = l.map (fun p => if p.1 = k then (k, v) else p) := by
    intro l
    rw [List.map_map]
    apply List.map_congr_left
    intro p _
    by_cases hp : p.1 = k <;> simp [hp]
  have hset : SMap.hasKey (SMap.set m k v) k = true := SMap.hasKey_set_self m k v
  unfold SMap.hasKey at hset
  unfold SMap.set
  by_cases h : m.any (fun p => p.1 = k) = true
  · rw [if_pos h]
    rw [if_pos (by unfold SMap.set at hset; rwa [if_pos h] at hset)]
    exact hupd m
  · rw [if_neg h]
    rw [if_pos (by unfold SMap.set at hset; rwa [if_neg h] at hset)]
    rw [List.map_append]
    have hm : m.map (fun p => if p.1 = k then (k, v) else p) = m := by
      conv_rhs => rw [← List.map_id m]
      apply List.map_congr_left
      intro p hp
      have hnk : ¬ p.1 = k := by
        intro hk
        exact h (List.any_eq_true.mpr ⟨p, hp, by simpa using hk⟩)
      simp [hnk]
    rw [hm]
    simp

theorem SMap.mem_set {α : Type} {m : SMap α} {k : String} {v : α}
    {p : String × α} (hp : p ∈ SMap.set m k v) : p = (k, v) ∨ p ∈ m := by
  unfold SMap.set at hp
  split at hp
  · rcases List.mem_map.mp hp with ⟨q, hq, hmap⟩
    by_cases hk : q.1 = k
    · rw [if_pos hk] at hmap
      exact Or.inl hmap.symm
    · rw [if_neg hk] at hmap
      exact Or.inr (hmap ▸ hq)
  · rcases List.mem_append.mp hp with hq | hq
    · exact Or.inr hq
    · exact Or.inl (List.mem_singleton.mp hq)

theorem SMap.mem_del {α : Type} {m : SMap α} {k : String}
    {p : String × α} (hp : p ∈ SMap.del m k) : p ∈ m :=
  List.mem_of_mem_filter hp

theorem SMap.get?_mem {α : Type} {m : SMap α} {k : String} {v : α}
    (h : SMap.get? m k = some v) : (k, v) ∈ m := by
  unfold SMap.get? at h
  cases hf : m.find? (fun p => p.1 = k) with
  | none => rw [hf] at h; cases h
  | some p =>
    rw [hf] at h
    have hmem := List.mem_of_find?_eq_some hf
    have hkey : p.1 = k := by
      have := List.find?_some hf
      simpa using this
    cases h
    have : p = (k, p.2) := by
      cases p
      simp at hkey
      simp [hkey]
    exact this ▸ hmem

theorem RoomsGood.set_of {rooms : SMap Room} (h : RoomsGood rooms)
    {rid : String} {room' : Room} (hg : RoomGood room') :
    RoomsGood (SMap.set rooms rid room') := by
  intro p hp
  rcases SMap.mem_set hp with hq | hq
  · rw [hq]
    exact hg
  · exact h p hq

theorem RoomsGood.del_of {rooms : SMap Room} (h : RoomsGood rooms)
    {rid : String} : RoomsGood (SMap.del rooms rid) := by
  intro p hp
  exact h p (SMap.mem_del hp)

theorem RoomsGood.lookup {rooms : SMap Room} (h : RoomsGood rooms)
    {rid : String} {room : Room} (hq : SMap.get? rooms rid = some room) :
    RoomGood room :=
  h (rid, room) (SMap.get?_mem hq)

theorem RoomsTurnOK.turn_set_of {lib : ChessLib} {rooms : SMap Room}
    (h : RoomsTurnOK lib rooms) {rid : String} {room' : Room}
    (hg : ∀ gs, room'.gameState = some gs → gs.turn = lib.turn gs.fen) :
    RoomsTurnOK lib (SMap.set rooms rid room') := by
  intro p hp
  rcases SMap.mem_set hp with hq | hq
  · rw [hq]
    exact hg
  · exact h p hq

theorem RoomsTurnOK.turn_del_of {lib : ChessLib} {rooms : SMap Room}
    (h : RoomsTurnOK lib rooms) {rid : String} :
    RoomsTurnOK lib (SMap.del rooms rid) := by
  intro p hp
  exact h p (SMap.mem_del hp)

theorem RoomsTurnOK.turn_lookup {lib : ChessLib} {rooms : SMap Room}
    (h : RoomsTurnOK lib rooms) {rid : String} {room : Room}
    (hq : SMap.get? rooms rid = some room) {gs : GameState}
    (hgs : room.gameState = some gs) : gs.turn = lib.turn gs.fen :=
  h (rid, room) (SMap.get?_mem hq) gs hgs

theorem ChessEngine.mkMove_some {e e' : ChessEngine} {fromSq toSq : String}
    {promotion : Option String} {now : Nat} {mv : MoveRecord}
    (h : ChessEngine.mkMove e fromSq toSq promotion now = (some mv, e')) :
    ∃ r, e.lib.move e.fen fromSq toSq promotion = some r ∧
      mv.fen = r.after ∧ e'.fen = r.after ∧ e'.lib = e.lib ∧
      mv = { fromSq := fromSq, toSq := toSq, san := r.san, fen := r.after,
             timestamp := now, promotion := r.promotion } := by
  unfold ChessEngine.mkMove at h
  split at h
  · cases h
  · rename_i r hr
    refine ⟨r, hr, ?_⟩
    cases h
    simp

theorem RoomManager.chargeClock_moves (settings : RoomSettings)
    (gs : GameState) (playerColor : PlayerColor) (roomState : RoomState)
    (now : Nat) :
    (RoomManager.chargeClock settings gs playerColor roomState now).1.moves
      = gs.moves := by
  unfold RoomManager.chargeClock
  split
  · split
    · try dsimp only
      split
      · split
        · try dsimp only
          split <;> rfl
        · rfl
      · split
        · try dsimp only
          split <;> rfl
        · rfl
    · rfl
  · rfl

theorem RoomManager.chargeClock_turn (settings : RoomSettings)
    (gs : GameState) (playerColor : PlayerColor) (roomState : RoomState)
    (now : Nat) :
    (RoomManager.chargeClock settings gs playerColor roomState now).1.turn
      = gs.turn := by
  unfold RoomManager.chargeClock
  split
  · split
    · try dsimp only
      split
      · split
        · try dsimp only
          split <;> rfl
        · rfl
      · split
        · try dsimp only
          split <;> rfl
        · rfl
    · rfl
  · rfl

theorem RoomManager.chargeClock_cases (settings : RoomSettings)
    (gs : GameState) (playerColor : PlayerColor) (roomState : RoomState)
    (now : Nat) :
    ((RoomManager.chargeClock settings gs playerColor roomState now).2 = .finished ∧
     (RoomManager.chargeClock settings gs playerColor roomState now).1.status = .timeout) ∨
    ((RoomManager.chargeClock settings gs playerColor roomState now).2 = roomState ∧
     (RoomManager.chargeClock settings gs playerColor roomState now).1.status = gs.status) := by
  unfold RoomManager.chargeClock
  split
  · split
    · try dsimp only
      split
      · split
        · try dsimp only
          split
          · exact Or.inl ⟨rfl, rfl⟩
          · exact Or.inr ⟨rfl, rfl⟩
        · exact Or.inr ⟨rfl, rfl⟩
      · split
        · try dsimp only
          split
          · exact Or.inl ⟨rfl, rfl⟩
          · exact Or.inr ⟨rfl, rfl⟩
        · exact Or.inr ⟨rfl, rfl⟩
    · exact Or.inr ⟨rfl, rfl⟩
  · exact Or.inr ⟨rfl, rfl⟩

theorem RoomManager.finishMove_turn (engine' : ChessEngine) (move : MoveRecord)
    (charged : GameState × RoomState) (now : Nat) :
    (RoomManager.finishMove engine' move charged now).1.turn
      = ChessEngine.getTurn engine' := by
  unfold RoomManager.finishMove
  try dsimp only
  split <;> rfl

theorem RoomManager.finishMove_moves (engine' : ChessEngine) (move : MoveRecord)
    (charged : GameState × RoomState) (now : Nat) :
    (RoomManager.finishMove engine' move charged now).1.moves
      = charged.1.moves ++ [move] := by
  unfold RoomManager.finishMove
  try dsimp only
  split <;> rfl

theorem RoomManager.finishMove_cases (engine' : ChessEngine) (move : MoveRecord)
    (charged : GameState × RoomState) (now : Nat) :
    (RoomManager.finishMove engine' move charged now).2 = .finished ∨
    ((RoomManager.finishMove engine' move charged now).2 = charged.2 ∧
     (RoomManager.finishMove engine' move charged now).1.status = charged.1.status) := by
  unfold RoomManager.finishMove
  try dsimp only
  split
  · exact Or.inl rfl
  · exact Or.inr ⟨rfl, rfl⟩

theorem RoomManager.makeMove_spec (lib : ChessLib) (st : ServerState)
    (roomId socketId fromSq toSq : String) (promotion : Option String)
    (odId : Option String) (now : Nat) (res : MoveOutcome) (st' : ServerState)
    (heq : RoomManager.makeMove lib st roomId socketId fromSq toSq promotion
      odId now = (res, st')) :
    (res.success = false ∧ st' = st ∧ res.error.isSome = true) ∨
    (res.success = true ∧ ∃ room gs mv engine' final,
      SMap.get? st.rooms roomId = some room ∧
      room.state = .in_progress ∧
      room.gameState = some gs ∧
      (room.hostId = odId.getD socketId ∨
        room.opponentId = some (odId.getD socketId)) ∧
      gs.turn = (if room.hostId = odId.getD socketId
        then PlayerColor.white else PlayerColor.black) ∧
      ChessEngine.mkMove (ChessEngine.fromGameState lib gs) fromSq toSq
        promotion now = (some mv, engine') ∧
      final = RoomManager.finishMove engine' mv
        (RoomManager.chargeClock room.settings gs
          (if room.hostId = odId.getD socketId
            then PlayerColor.white else PlayerColor.black)
          room.state now) now ∧
      res.move = some mv ∧
      res.gameState = some final.1 ∧
      st' = { st with
        rooms := SMap.set st.rooms roomId
            ({ room with gameState := some final.1, state := final.2,
                         lastActivity := now }) }) := by
  unfold RoomManager.makeMove at heq
  cases hroom : SMap.get? st.rooms roomId with
  | none =>
    simp only [hroom] at heq
    cases heq
    exact Or.inl ⟨rfl, rfl, rfl⟩
  | some room =>
    simp only [hroom] at heq
    by_cases hstate : room.state = RoomState.in_progress
    · rw [if_neg (not_not_intro hstate)] at heq
      cases hgs : room.gameState with
      | none =>
        simp only [hgs] at heq
        cases heq
        exact Or.inl ⟨rfl, rfl, rfl⟩
      | some gs =>
        simp only [hgs] at heq
        by_cases hhost : room.hostId = odId.getD socketId
        · rw [if_neg (fun hc => hc.1 hhost)] at heq
          rw [if_pos hhost] at heq
          by_cases hturn : gs.turn = PlayerColor.white
          · rw [if_neg (not_not_intro hturn)] at heq
            rcases hmk : ChessEngine.mkMove (ChessEngine.fromGameState lib gs)
                fromSq toSq promotion now with ⟨mvq, eng⟩
            cases mvq with
            | none =>
              simp only [hmk] at heq
              cases heq
              exact Or.inl ⟨rfl, rfl, rfl⟩
            | some mv =>
              simp only [hmk] at heq
              cases heq
              refine Or.inr ⟨rfl, room, gs, mv, eng, _, rfl, hstate, hgs,
                Or.inl hhost, ?_, hmk, ?_, rfl, rfl, rfl⟩
              · rw [if_pos hhost]; exact hturn
              · rw [if_pos hhost]
          · rw [if_pos hturn] at heq
            cases heq
            exact Or.inl ⟨rfl, rfl, rfl⟩
        · rw [if_neg hhost] at heq
          by_cases hopp : room.opponentId = some (odId.getD socketId)
          · rw [if_neg (fun hc => hc.2 hopp)] at heq
            by_cases hturn : gs.turn = PlayerColor.black
            · rw [if_neg (not_not_intro hturn)] at heq
              rcases hmk : ChessEngine.mkMove (ChessEngine.fromGameState lib gs)
                  fromSq toSq promotion now with ⟨mvq, eng⟩
              cases mvq with
              | none =>
                simp only [hmk] at heq
                cases heq
                exact Or.inl ⟨rfl, rfl, rfl⟩
              | some mv =>
                simp only [hmk] at heq
                cases heq
                refine Or.inr ⟨rfl, room, gs, mv, eng, _, rfl, hstate, hgs,
                  Or.inr hopp, ?_, hmk, ?_, rfl, rfl, rfl⟩
                · rw [if_neg hhost]; exact hturn
                · rw [if_neg hhost]
            · rw [if_pos hturn] at heq
              cases heq
              exact Or.inl ⟨rfl, rfl, rfl⟩
          · rw [if_pos ⟨hhost, hopp⟩] at heq
            cases heq
            exact Or.inl ⟨rfl, rfl, rfl⟩
    · rw [if_pos hstate] at heq
      cases heq
      exact Or.inl ⟨rfl, rfl, rfl⟩

theorem RoomManager.registerUserSession_rooms (st : ServerState)
    (odId odName roomId : String) (role : PlayerRole) (socketId : String)
    (color : Option PlayerColor) :
    (RoomManager.registerUserSession st odId odName roomId role socketId
      color).rooms = st.rooms := rfl

theorem RoomManager.removeUserSession_rooms (st : ServerState) (odId : String) :
    (RoomManager.removeUserSession st odId).rooms = st.rooms := by
  unfold RoomManager.removeUserSession
  split <;> rfl

theorem RoomManager.removeUserSession_gone (st : ServerState) (odId : String) :
    SMap.get? (RoomManager.removeUserSession st odId).userSessions odId = none := by
  unfold RoomManager.removeUserSession
  split
  · rename_i hnone
    exact hnone
  · exact SMap.get?_del_self _ _

theorem RoomManager.createRoom_spec (st : ServerState)
    (roomId hostId hostName : String) (settings : SettingsPatch)
    (odId : Option String) (now : Nat) (room : Room) (st' : ServerState)
    (heq : RoomManager.createRoom st roomId hostId hostName settings odId now
      = (room, st')) :
    room = { roomId := roomId, hostId := odId.getD hostId,
             hostName := hostName, opponentId := none, opponentName := none,
             spectators := [], state := .waiting_for_player, createdAt := now,
             lastActivity := now, gameState := none,
             settings := settings.mergeInto
               { timeControl := none, allowSpectators := true,
                 allowJoin := true, isPrivate := false, isLocked := false } } ∧
    st'.rooms = SMap.set st.rooms roomId room := by
  unfold RoomManager.createRoom at heq
  simp only [] at heq
  cases heq
  refine ⟨rfl, ?_⟩
  cases odId with
  | none => rfl
  | some uid => rfl

theorem RoomManager.spectateRoom_spec (st : ServerState)
    (roomId spectatorId spectatorName : String) (odId : Option String)
    (now : Nat) (res : Option Room) (st' : ServerState)
    (heq : RoomManager.spectateRoom st roomId spectatorId spectatorName odId
      now = (res, st')) :
    (res = none ∧ st' = st ∧
      (SMap.get? st.rooms roomId = none ∨
        (∃ room, SMap.get? st.rooms roomId = some room ∧
          room.settings.allowSpectators = false))) ∨
    (∃ room, SMap.get? st.rooms roomId = some room ∧
      room.settings.allowSpectators = true ∧
      res = some ({ room with
        spectators := SMap.set room.spectators (odId.getD spectatorId)
          spectatorName,
        lastActivity := now }) ∧
      st'.rooms = SMap.set st.rooms roomId ({ room with
        spectators := SMap.set room.spectators (odId.getD spectatorId)
          spectatorName,
        lastActivity := now }) ∧
      st'.drawOffers = st.drawOffers) := by
  unfold RoomManager.spectateRoom at heq
  cases hroom : SMap.get? st.rooms roomId with
  | none =>
    simp only [hroom] at heq
    cases heq
    exact Or.inl ⟨rfl, rfl, Or.inl rfl⟩
  | some room =>
    simp only [hroom] at heq
    by_cases hspec : room.settings.allowSpectators = true
    · rw [if_neg (by simp [hspec])] at heq
      cases heq
      refine Or.inr ⟨room, rfl, hspec, rfl, ?_, ?_⟩ <;>
        cases odId <;> rfl
    · rw [if_pos (by simp [Bool.not_eq_true] at hspec; simp [hspec])] at heq
      cases heq
      exact Or.inl ⟨rfl, rfl, Or.inr ⟨room, rfl, Bool.not_eq_true _ ▸ hspec⟩⟩

theorem RoomManager.joinRoom_spec (st : ServerState)
    (roomId playerId playerName : String) (odId : Option String) (now : Nat)
    (res : Option (Room × PlayerColor)) (st' : ServerState)
    (heq : RoomManager.joinRoom st roomId playerId playerName odId now
      = (res, st')) :
    (res = none ∧ st' = st) ∨
    (∃ room, SMap.get? st.rooms roomId = some room ∧
      room.state = .waiting_for_player ∧
      room.opponentId = none ∧
      room.hostId ≠ odId.getD playerId ∧
      room.settings.allowJoin = true ∧
      room.settings.isLocked = false ∧
      res = some ({ room with
        opponentId := some (odId.getD playerId),
        opponentName := some playerName,
        state := .in_progress,
        lastActivity := now,
        gameState := some (ChessEngine.createInitialGameState
          room.settings.timeControl now) }, PlayerColor.black) ∧
      st'.rooms = SMap.set st.rooms roomId ({ room with
        opponentId := some (odId.getD playerId),
        opponentName := some playerName,
        state := .in_progress,
        lastActivity := now,
        gameState := some (ChessEngine.createInitialGameState
          room.settings.timeControl now) })) := by
  unfold RoomManager.joinRoom at heq
  cases hroom : SMap.get? st.rooms roomId with
  | none =>
    simp only [hroom] at heq
    cases heq
    exact Or.inl ⟨rfl, rfl⟩
  | some room =>
    simp only [hroom] at heq
    by_cases hstate : room.state = RoomState.waiting_for_player
    · rw [if_neg (not_not_intro hstate)] at heq
      by_cases hopp : room.opponentId = none
      · rw [if_neg (not_not_intro hopp)] at heq
        by_cases hhost : room.hostId = odId.getD playerId
        · rw [if_pos hhost] at heq
          cases heq
          exact Or.inl ⟨rfl, rfl⟩
        · rw [if_neg hhost] at heq
          by_cases hjoin : room.settings.allowJoin = true
          · rw [if_neg (by simp [hjoin])] at heq
            by_cases hlock : room.settings.isLocked = true
            · rw [if_pos hlock] at heq
              cases heq
              exact Or.inl ⟨rfl, rfl⟩
            · rw [if_neg hlock] at heq
              cases heq
              refine Or.inr ⟨room, rfl, hstate, hopp, hhost, hjoin,
                Bool.not_eq_true _ ▸ hlock, rfl, ?_⟩
              cases odId <;> rfl
          · rw [if_pos (by simp [Bool.not_eq_true] at hjoin; simp [hjoin])]
              at heq
            cases heq
            exact Or.inl ⟨rfl, rfl⟩
      · rw [if_pos hopp] at heq
        cases heq
        exact Or.inl ⟨rfl, rfl⟩
    · rw [if_pos hstate] at heq
      cases heq
      exact Or.inl ⟨rfl, rfl⟩

theorem RoomManager.resign_spec (st : ServerState) (roomId socketId : String)
    (odId : Option String) (now : Nat) (res : Option GameState)
    (st' : ServerState)
    (heq : RoomManager.resign st roomId socketId odId now = (res, st')) :
    (res = none ∧ st' = st) ∨
    (∃ room gs, SMap.get? st.rooms roomId = some room ∧
      room.state = .in_progress ∧ room.gameState = some gs ∧
      (room.hostId = odId.getD socketId ∨
        room.opponentId = some (odId.getD socketId)) ∧
      st'.rooms = SMap.set st.rooms roomId ({ room with
        gameState := some ({ gs with status := GameStatus.resigned, winner := some (if room.hostId = odId.getD socketId then PlayerColor.black else PlayerColor.white) }),
        state := .finished, lastActivity := now })) := by
  unfold RoomManager.resign at heq
  cases hroom : SMap.get? st.rooms roomId with
  | none =>
    simp only [hroom] at heq
    cases heq
    exact Or.inl ⟨rfl, rfl⟩
  | some room =>
    simp only [hroom] at heq
    by_cases hstate : room.state = RoomState.in_progress
    · rw [if_neg (not_not_intro hstate)] at heq
      cases hgs : room.gameState with
      | none =>
        simp only [hgs] at heq
        cases heq
        exact Or.inl ⟨rfl, rfl⟩
      | some gs =>
        simp only [hgs] at heq
        by_cases hhost : room.hostId = odId.getD socketId
        · rw [if_neg (fun hc => hc.1 hhost)] at heq
          rw [if_pos hhost] at heq
          cases heq
          refine Or.inr ⟨room, gs, rfl, hstate, hgs, Or.inl hhost, ?_⟩
          rw [if_pos hhost]
        · by_cases hopp : room.opponentId = some (odId.getD socketId)
          · rw [if_neg (fun hc => hc.2 hopp)] at heq
            rw [if_neg hhost] at heq
            cases heq
            refine Or.inr ⟨room, gs, rfl, hstate, hgs, Or.inr hopp, ?_⟩
            rw [if_neg hhost]
          · rw [if_pos ⟨hhost, hopp⟩] at heq
            cases heq
            exact Or.inl ⟨rfl, rfl⟩
    · rw [if_pos hstate] at heq
      cases heq
      exact Or.inl ⟨rfl, rfl⟩

theorem RoomManager.drawGame_spec (st : ServerState) (roomId : String)
    (now : Nat) (res : Option GameState) (st' : ServerState)
    (heq : RoomManager.drawGame st roomId now = (res, st')) :
    (res = none ∧ st' = st) ∨
    (∃ room gs, SMap.get? st.rooms roomId = some room ∧
      room.state = .in_progress ∧ room.gameState = some gs ∧
      res = some ({ gs with status := GameStatus.draw, winner := none }) ∧
      st' = { st with rooms := SMap.set st.rooms roomId ({ room with
        gameState := some ({ gs with status := GameStatus.draw, winner := none }),
        state := .finished, lastActivity := now }) }) := by
  unfold RoomManager.drawGame at heq
  cases hroom : SMap.get? st.rooms roomId with
  | none =>
    simp only [hroom] at heq
    cases heq
    exact Or.inl ⟨rfl, rfl⟩
  | some room =>
    simp only [hroom] at heq
    by_cases hstate : room.state = RoomState.in_progress
    · rw [if_neg (not_not_intro hstate)] at heq
      cases hgs : room.gameState with
      | none =>
        simp only [hgs] at heq
        cases heq
        exact Or.inl ⟨rfl, rfl⟩
      | some gs =>
        simp only [hgs] at heq
        cases heq
        exact Or.inr ⟨room, gs, rfl, hstate, hgs, rfl, rfl⟩
    · rw [if_pos hstate] at heq
      cases heq
      exact Or.inl ⟨rfl, rfl⟩

theorem RoomManager.setRoomLocked_spec (st : ServerState)
    (roomId hostId : String) (locked : Bool) (now : Nat) (ok : Bool)
    (st' : ServerState)
    (heq : RoomManager.setRoomLocked st roomId hostId locked now = (ok, st')) :
    (ok = false ∧ st' = st) ∨
    (ok = true ∧ ∃ room, SMap.get? st.rooms roomId = some room ∧
      room.hostId = hostId ∧
      st' = { st with rooms := SMap.set st.rooms roomId ({ room with
        settings := { room.settings with isLocked := locked },
        lastActivity := now }) }) := by
  unfold RoomManager.setRoomLocked at heq
  cases hroom : SMap.get? st.rooms roomId with
  | none =>
    simp only [hroom] at heq
    cases heq
    exact Or.inl ⟨rfl, rfl⟩
  | some room =>
    simp only [hroom] at heq
    by_cases hhost : room.hostId = hostId
    · rw [if_neg (not_not_intro hhost)] at heq
      cases heq
      exact Or.inr ⟨rfl, room, rfl, hhost, rfl⟩
    · rw [if_pos hhost] at heq
      cases heq
      exact Or.inl ⟨rfl, rfl⟩

theorem RoomManager.updateRoomSettings_spec (st : ServerState)
    (roomId hostId : String) (settings : SettingsPatch) (now : Nat)
    (ok : Bool) (st' : ServerState)
    (heq : RoomManager.updateRoomSettings st roomId hostId settings now
      = (ok, st')) :
    (ok = false ∧ st' = st) ∨
    (ok = true ∧ ∃ room, SMap.get? st.rooms roomId = some room ∧
      room.hostId = hostId ∧
      st' = { st with rooms := SMap.set st.rooms roomId ({ room with
        settings := settings.mergeInto room.settings,
        lastActivity := now }) }) := by
  unfold RoomManager.updateRoomSettings at heq
  cases hroom : SMap.get? st.rooms roomId with
  | none =>
    simp only [hroom] at heq
    cases heq
    exact Or.inl ⟨rfl, rfl⟩
  | some room =>
    simp only [hroom] at heq
    by_cases hhost : room.hostId = hostId
    · rw [if_neg (not_not_intro hhost)] at heq
      cases heq
      exact Or.inr ⟨rfl, room, rfl, hhost, rfl⟩
    · rw [if_pos hhost] at heq
      cases heq
      exact Or.inl ⟨rfl, rfl⟩

theorem Handlers.offerDraw_rooms (st : ServerState) (roomId socketId : String)
    (odId : Option String) :
    (Handlers.offerDraw st roomId socketId odId).2.rooms = st.rooms := by
  unfold Handlers.offerDraw
  cases SMap.get? st.rooms roomId with
  | none => rfl
  | some room =>
    dsimp only
    split
    · rfl
    · split <;> rfl

theorem RoomManager.kickSpectator_spec (st : ServerState)
    (roomId hostId targetSpectatorId : String) (res : KickResult)
    (st' : ServerState)
    (heq : RoomManager.kickSpectator st roomId hostId targetSpectatorId
      = (res, st')) :
    (res.success = false ∧ st' = st ∧ res.reason.isSome = true) ∨
    (res.success = true ∧ ∃ room, SMap.get? st.rooms roomId = some room ∧
      room.hostId = hostId ∧ targetSpectatorId ≠ hostId ∧
      room.opponentId ≠ some targetSpectatorId ∧
      SMap.hasKey room.spectators targetSpectatorId = true ∧
      st' = RoomManager.removeUserSession
        ({ st with rooms := SMap.set st.rooms roomId ({ room with
          spectators := SMap.del room.spectators targetSpectatorId }) })
        targetSpectatorId) := by
  unfold RoomManager.kickSpectator at heq
  cases hroom : SMap.get? st.rooms roomId with
  | none =>
    simp only [hroom] at heq
    cases heq
    exact Or.inl ⟨rfl, rfl, rfl⟩
  | some room =>
    simp only [hroom] at heq
    by_cases hhost : room.hostId = hostId
    · rw [if_neg (not_not_intro hhost)] at heq
      by_cases hself : targetSpectatorId = hostId
      · rw [if_pos hself] at heq
        cases heq
        exact Or.inl ⟨rfl, rfl, rfl⟩
      · rw [if_neg hself] at heq
        by_cases hopp : room.opponentId = some targetSpectatorId
        · rw [if_pos hopp] at heq
          cases heq
          exact Or.inl ⟨rfl, rfl, rfl⟩
        · rw [if_neg hopp] at heq
          by_cases hspec : SMap.hasKey room.spectators targetSpectatorId = true
          · rw [if_pos hspec] at heq
            cases heq
            exact Or.inr ⟨rfl, room, rfl, hhost, hself, hopp, hspec, rfl⟩
          · rw [if_neg hspec] at heq
            cases heq
            exact Or.inl ⟨rfl, rfl, rfl⟩
    · rw [if_pos hhost] at heq
      cases heq
      exact Or.inl ⟨rfl, rfl, rfl⟩

theorem RoomManager.leaveRoom_rooms (st : ServerState) (socketId : String)
    (odId : Option String) (res : LeaveResult) (st' : ServerState)
    (heq : RoomManager.leaveRoom st socketId odId = (res, st')) :
    st'.rooms = st.rooms ∨
    (∃ rId r, (rId, r) ∈ st.rooms ∧
      st'.rooms = SMap.set st.rooms rId ({ r with
        spectators := SMap.del r.spectators (odId.getD socketId) })) ∨
    (∃ room : Room, (∃ rid₀, SMap.get? st.rooms rid₀ = some room) ∧
      st'.rooms = SMap.set st.rooms room.roomId ({ room with
      gameState := room.gameState.map (fun gs =>
        { gs with status := GameStatus.abandoned,
                  winner := some (if room.hostId = odId.getD socketId
                    then PlayerColor.black else PlayerColor.white) }),
      state := RoomState.finished })) ∨
    (∃ room : Room, st'.rooms = SMap.del st.rooms room.roomId) := by
  have hmain : ∀ (room : Room), (∃ rid₀, SMap.get? st.rooms rid₀ = some room) →
      (st'.rooms = st.rooms ∨
        st'.rooms = SMap.set st.rooms room.roomId ({ room with
          gameState := room.gameState.map (fun gs =>
            { gs with status := GameStatus.abandoned,
                      winner := some (if room.hostId = odId.getD socketId
                        then PlayerColor.black else PlayerColor.white) }),
          state := RoomState.finished }) ∨
        st'.rooms = SMap.del st.rooms room.roomId) →
      (st'.rooms = st.rooms ∨
        (∃ rId r, (rId, r) ∈ st.rooms ∧
          st'.rooms = SMap.set st.rooms rId ({ r with
            spectators := SMap.del r.spectators (odId.getD socketId) })) ∨
        (∃ room : Room, (∃ rid₀, SMap.get? st.rooms rid₀ = some room) ∧
          st'.rooms = SMap.set st.rooms room.roomId ({ room with
          gameState := room.gameState.map (fun gs =>
            { gs with status := GameStatus.abandoned,
                      winner := some (if room.hostId = odId.getD socketId
                        then PlayerColor.black else PlayerColor.white) }),
          state := RoomState.finished })) ∨
        (∃ room : Room, st'.rooms = SMap.del st.rooms room.roomId)) := by
    intro room hmem hcase
    rcases hcase with hc | hc | hc
    · exact Or.inl hc
    · exact Or.inr (Or.inr (Or.inl ⟨room, hmem, hc⟩))
    · exact Or.inr (Or.inr (Or.inr ⟨room, hc⟩))
  unfold RoomManager.leaveRoom at heq
  simp only [] at heq
  cases odId with
  | none =>
    cases hbs : (SMap.get? st.playerRooms socketId).bind (SMap.get? st.rooms)
        with
    | none =>
      simp only [hbs] at heq
      cases hfind : st.rooms.find?
          (fun p => SMap.hasKey p.2.spectators (Option.getD none socketId))
          with
      | none =>
        simp only [hfind] at heq
        cases heq
        exact Or.inl rfl
      | some p =>
        obtain ⟨rId, r⟩ := p
        simp only [hfind] at heq
        cases heq
        exact Or.inr (Or.inl ⟨rId, r, List.mem_of_find?_eq_some hfind, rfl⟩)
    | some room =>
      simp only [hbs] at heq
      rcases Option.bind_eq_some.mp hbs with ⟨a, -, ha2⟩
      apply hmain room ⟨a, ha2⟩
      by_cases hp : (room.hostId = Option.getD none socketId ∨
          room.opponentId = some (Option.getD none socketId)) ∧
          room.state = RoomState.in_progress
      · rw [if_pos hp] at heq
        dsimp only at heq
        cases heq
        exact Or.inr (Or.inl rfl)
      · rw [if_neg hp] at heq
        by_cases hw : room.state = RoomState.waiting_for_player ∧
            room.hostId = Option.getD none socketId
        · rw [if_pos hw] at heq
          dsimp only at heq
          cases heq
          exact Or.inr (Or.inr rfl)
        · rw [if_neg hw] at heq
          dsimp only at heq
          cases heq
          exact Or.inl rfl
  | some uid =>
    cases hbs : (SMap.get? st.playerRooms socketId).bind (SMap.get? st.rooms)
        with
    | none =>
      simp only [hbs] at heq
      cases hsess : (SMap.get? st.userSessions uid).bind
          (fun session => SMap.get? st.rooms session.roomId) with
      | none =>
        simp only [hsess] at heq
        cases hfind : st.rooms.find?
            (fun p => SMap.hasKey p.2.spectators (Option.getD (some uid) socketId))
            with
        | none =>
          simp only [hfind] at heq
          cases heq
          exact Or.inl rfl
        | some p =>
          obtain ⟨rId, r⟩ := p
          simp only [hfind] at heq
          cases heq
          rw [RoomManager.removeUserSession_rooms]
          exact Or.inr (Or.inl ⟨rId, r, List.mem_of_find?_eq_some hfind, rfl⟩)
      | some room =>
        simp only [hsess] at heq
        rcases Option.bind_eq_some.mp hsess with ⟨s, -, hs2⟩
        apply hmain room ⟨s.roomId, hs2⟩
        by_cases hp : (room.hostId = Option.getD (some uid) socketId ∨
            room.opponentId = some (Option.getD (some uid) socketId)) ∧
            room.state = RoomState.in_progress
        · rw [if_pos hp] at heq
          dsimp only at heq
          cases heq
          rw [RoomManager.removeUserSession_rooms]
          exact Or.inr (Or.inl rfl)
        · rw [if_neg hp] at heq
          by_cases hw : room.state = RoomState.waiting_for_player ∧
              room.hostId = Option.getD (some uid) socketId
          · rw [if_pos hw] at heq
            dsimp only at heq
            cases heq
            rw [RoomManager.removeUserSession_rooms]
            exact Or.inr (Or.inr rfl)
          · rw [if_neg hw] at heq
            dsimp only at heq
            cases heq
            rw [RoomManager.removeUserSession_rooms]
            exact Or.inl rfl
    | some room =>
      simp only [hbs] at heq
      rcases Option.bind_eq_some.mp hbs with ⟨a, -, ha2⟩
      apply hmain room ⟨a, ha2⟩
      by_cases hp : (room.hostId = Option.getD (some uid) socketId ∨
          room.opponentId = some (Option.getD (some uid) socketId)) ∧
          room.state = RoomState.in_progress
      · rw [if_pos hp] at heq
        dsimp only at heq
        cases heq
        rw [RoomManager.removeUserSession_rooms]
        exact Or.inr (Or.inl rfl)
      · rw [if_neg hp] at heq
        by_cases hw : room.state = RoomState.waiting_for_player ∧
            room.hostId = Option.getD (some uid) socketId
        · rw [if_pos hw] at heq
          dsimp only at heq
          cases heq
          rw [RoomManager.removeUserSession_rooms]
          exact Or.inr (Or.inr rfl)
        · rw [if_neg hw] at heq
          dsimp only at heq
          cases heq
          rw [RoomManager.removeUserSession_rooms]
          exact Or.inl rfl

theorem RoomGood.finished {room : Room} (h : room.state = .finished) :
    RoomGood room :=
  ⟨fun hc => absurd (h.symm.trans hc) (by intro hcon; cases hcon),
   fun _ _ _ => h⟩

theorem RoomGood.congr {room room' : Room} (h : RoomGood room)
    (hs : room'.state = room.state) (ho : room'.opponentId = room.opponentId)
    (hh : room'.hostId = room.hostId) (hg : room'.gameState = room.gameState) :
    RoomGood room' := by
  constructor
  · intro hprog
    rcases h.1 (hs ▸ hprog) with ⟨⟨oid, hoid, hneq⟩, ⟨gs, hgs, hact⟩⟩
    exact ⟨⟨oid, ho ▸ hoid, hh ▸ hneq⟩, ⟨gs, hg ▸ hgs, hact⟩⟩
  · intro gs hgs hact
    rw [hs]
    exact h.2 gs (hg ▸ hgs) hact

theorem RoomManager.finishMove_fen (engine' : ChessEngine) (move : MoveRecord)
    (charged : GameState × RoomState) (now : Nat) :
    (RoomManager.finishMove engine' move charged now).1.fen
      = ChessEngine.getFen engine' := by
  unfold RoomManager.finishMove
  dsimp only
  split <;> rfl

theorem Handlers.acceptDraw_rooms (st : ServerState) (roomId socketId : String)
    (odId : Option String) (now : Nat) :
    (Handlers.acceptDraw st roomId socketId odId now).2.rooms = st.rooms ∨
    (Handlers.acceptDraw st roomId socketId odId now).2.rooms
      = (RoomManager.drawGame st roomId now).2.rooms := by
  unfold Handlers.acceptDraw
  cases SMap.get? st.drawOffers roomId with
  | none => exact Or.inl rfl
  | some offerer =>
    dsimp only
    split
    · exact Or.inl rfl
    · cases SMap.get? st.rooms roomId with
      | none => exact Or.inl rfl
      | some room =>
        dsimp only
        split
        · exact Or.inl rfl
        · split
          · exact Or.inl rfl
          · rcases hdg : RoomManager.drawGame st roomId now with ⟨dres, st1⟩
            cases dres with
            | none => exact Or.inr rfl
            | some gsr => exact Or.inr rfl

theorem RoomManager.makeMove_not_in_progress (lib : ChessLib)
    (st : ServerState) (roomId socketId fromSq toSq : String)
    (promotion : Option String) (odId : Option String) (now : Nat)
    (room : Room) (hroom : SMap.get? st.rooms roomId = some room)
    (hst : room.state ≠ .in_progress) :
    (RoomManager.makeMove lib st roomId socketId fromSq toSq promotion odId
      now).1.success = false := by
  unfold RoomManager.makeMove
  simp only [hroom]
  rw [if_pos hst]
  rfl

theorem roomInvariant_step (lib : ChessLib) (st : ServerState) (op : Op)
    (h : RoomInvariant st) : RoomInvariant (Op.step lib st op) := by
  cases op with
  | createRoom roomId hostId hostName settings odId now =>
    rcases hc : RoomManager.createRoom st roomId hostId hostName settings odId
        now with ⟨room, st'⟩
    rcases RoomManager.createRoom_spec st roomId hostId hostName settings odId
        now room st' hc with ⟨hroomdef, hrooms⟩
    show RoomInvariant (RoomManager.createRoom st roomId hostId hostName
      settings odId now).2
    rw [hc]
    unfold RoomInvariant
    rw [hrooms]
    refine RoomsGood.set_of h ?_
    rw [hroomdef]
    constructor
    · intro hcon; cases hcon
    · intro gs hgs; cases hgs
  | joinRoom roomId playerId playerName odId now =>
    rcases hc : RoomManager.joinRoom st roomId playerId playerName odId now
        with ⟨res, st'⟩
    show RoomInvariant (RoomManager.joinRoom st roomId playerId playerName odId
      now).2
    rw [hc]
    rcases RoomManager.joinRoom_spec st roomId playerId playerName odId now res
        st' hc with ⟨-, hsame⟩ | ⟨room, hroom, hstate, hopp, hhost, hjoin,
          hlock, hres, hrooms⟩
    · rw [hsame]; exact h
    · unfold RoomInvariant
      rw [hrooms]
      refine RoomsGood.set_of h ?_
      constructor
      · intro _
        exact ⟨⟨odId.getD playerId, rfl, fun hcon => hhost hcon.symm⟩,
          ⟨ChessEngine.createInitialGameState room.settings.timeControl now,
            rfl, rfl⟩⟩
      · intro gs hgs hact
        exfalso
        apply hact
        cases hgs
        rfl
  | spectateRoom roomId spectatorId spectatorName odId now =>
    rcases hc : RoomManager.spectateRoom st roomId spectatorId spectatorName
        odId now with ⟨res, st'⟩
    show RoomInvariant (RoomManager.spectateRoom st roomId spectatorId
      spectatorName odId now).2
    rw [hc]
    rcases RoomManager.spectateRoom_spec st roomId spectatorId spectatorName
        odId now res st' hc with ⟨-, hsame, -⟩ | ⟨room, hroom, -, -, hrooms, -⟩
    · rw [hsame]; exact h
    · unfold RoomInvariant
      rw [hrooms]
      exact RoomsGood.set_of h (RoomGood.congr (h.lookup hroom) rfl rfl rfl rfl)
  | leaveRoom socketId odId =>
    rcases hc : RoomManager.leaveRoom st socketId odId with ⟨res, st'⟩
    show RoomInvariant (RoomManager.leaveRoom st socketId odId).2
    rw [hc]
    rcases RoomManager.leaveRoom_rooms st socketId odId res st' hc with
      hsame | ⟨rId, r, hmem, hrooms⟩ | ⟨room, -, hrooms⟩ | ⟨room, hrooms⟩
    · unfold RoomInvariant
      rw [hsame]; exact h
    · unfold RoomInvariant
      rw [hrooms]
      exact RoomsGood.set_of h (RoomGood.congr (h (rId, r) hmem) rfl rfl rfl rfl)
    · unfold RoomInvariant
      rw [hrooms]
      exact RoomsGood.set_of h (RoomGood.finished rfl)
    · unfold RoomInvariant
      rw [hrooms]
      exact RoomsGood.del_of h
  | makeMove roomId socketId fromSq toSq promotion odId now =>
    rcases hc : RoomManager.makeMove lib st roomId socketId fromSq toSq
        promotion odId now with ⟨res, st'⟩
    show RoomInvariant (RoomManager.makeMove lib st roomId socketId fromSq toSq
      promotion odId now).2
    rw [hc]
    rcases RoomManager.makeMove_spec lib st roomId socketId fromSq toSq
        promotion odId now res st' hc with ⟨-, hsame, -⟩ |
        ⟨-, room, gs, mv, engine', final, hroom, hstate, hgs, -, -, -, hfinal,
          -, -, hst'⟩
    · rw [hsame]; exact h
    · rw [hst']
      unfold RoomInvariant
      refine RoomsGood.set_of h ?_
      have hgood := h.lookup hroom
      rcases (hgood.1 hstate).2 with ⟨gs₀, hgs₀, hact₀⟩
      rw [hgs] at hgs₀
      cases hgs₀
      rcases RoomManager.finishMove_cases engine' mv
          (RoomManager.chargeClock room.settings gs
            (if room.hostId = odId.getD socketId then PlayerColor.white
              else PlayerColor.black) room.state now) now with
        hfin | ⟨hfin2, hfinstat⟩
      · rw [← hfinal] at hfin
        exact RoomGood.finished hfin
      · rcases RoomManager.chargeClock_cases room.settings gs
            (if room.hostId = odId.getD socketId then PlayerColor.white
              else PlayerColor.black) room.state now with
          ⟨hch, -⟩ | ⟨hch, hchstat⟩
        · rw [hch] at hfin2
          rw [← hfinal] at hfin2
          exact RoomGood.finished hfin2
        · rw [← hfinal] at hfin2 hfinstat
          rw [hch, hstate] at hfin2
          rw [hchstat, hact₀] at hfinstat
          constructor
          · intro _
            rcases (hgood.1 hstate).1 with ⟨oid, hoid, hneq⟩
            exact ⟨⟨oid, hoid, hneq⟩, ⟨final.1, rfl, hfinstat⟩⟩
          · intro gs' hgs' hact'
            exfalso
            apply hact'
            cases hgs'
            exact hfinstat
  | resign roomId socketId odId now =>
    rcases hc : RoomManager.resign st roomId socketId odId now with ⟨res, st'⟩
    show RoomInvariant (RoomManager.resign st roomId socketId odId now).2
    rw [hc]
    rcases RoomManager.resign_spec st roomId socketId odId now res st' hc with
      ⟨-, hsame⟩ | ⟨room, gs, hroom, -, -, -, hrooms⟩
    · rw [hsame]; exact h
    · unfold RoomInvariant
      rw [hrooms]
      exact RoomsGood.set_of h (RoomGood.finished rfl)
  | offerDraw roomId socketId odId =>
    show RoomInvariant (Handlers.offerDraw st roomId socketId odId).2
    unfold RoomInvariant
    rw [Handlers.offerDraw_rooms]
    exact h
  | acceptDraw roomId socketId odId now =>
    show RoomInvariant (Handlers.acceptDraw st roomId socketId odId now).2
    unfold RoomInvariant
    rcases Handlers.acceptDraw_rooms st roomId socketId odId now with
      hsame | hdraw
    · rw [hsame]; exact h
    · rw [hdraw]
      rcases hc : RoomManager.drawGame st roomId now with ⟨res, st1⟩
      rcases RoomManager.drawGame_spec st roomId now res st1 hc with
        ⟨-, hsame⟩ | ⟨room, gs, hroom, -, -, -, hst'⟩
      · rw [hsame]; exact h
      · rw [hst']
        exact RoomsGood.set_of h (RoomGood.finished rfl)
  | declineDraw roomId socketId odId =>
    exact h
  | roomKick roomId socketId targetId =>
    exact h
  | kickSpectator roomId hostId targetId =>
    rcases hc : RoomManager.kickSpectator st roomId hostId targetId
        with ⟨res, st'⟩
    show RoomInvariant (RoomManager.kickSpectator st roomId hostId targetId).2
    rw [hc]
    rcases RoomManager.kickSpectator_spec st roomId hostId targetId res st' hc
        with ⟨-, hsame, -⟩ | ⟨-, room, hroom, -, -, -, -, hst'⟩
    · rw [hsame]; exact h
    · rw [hst']
      unfold RoomInvariant
      rw [RoomManager.removeUserSession_rooms]
      exact RoomsGood.set_of h (RoomGood.congr (h.lookup hroom) rfl rfl rfl rfl)
  | setRoomLocked roomId hostId locked now =>
    rcases hc : RoomManager.setRoomLocked st roomId hostId locked now
        with ⟨ok, st'⟩
    show RoomInvariant (RoomManager.setRoomLocked st roomId hostId locked
      now).2
    rw [hc]
    rcases RoomManager.setRoomLocked_spec st roomId hostId locked now ok st' hc
        with ⟨-, hsame⟩ | ⟨-, room, hroom, -, hst'⟩
    · rw [hsame]; exact h
    · rw [hst']
      exact RoomsGood.set_of h (RoomGood.congr (h.lookup hroom) rfl rfl rfl rfl)
  | updateRoomSettings roomId hostId settings now =>
    rcases hc : RoomManager.updateRoomSettings st roomId hostId settings now
        with ⟨ok, st'⟩
    show RoomInvariant (RoomManager.updateRoomSettings st roomId hostId
      settings now).2
    rw [hc]
    rcases RoomManager.updateRoomSettings_spec st roomId hostId settings now ok
        st' hc with ⟨-, hsame⟩ | ⟨-, room, hroom, -, hst'⟩
    · rw [hsame]; exact h
    · rw [hst']
      exact RoomsGood.set_of h (RoomGood.congr (h.lookup hroom) rfl rfl rfl rfl)

theorem reachable_roomInvariant (lib : ChessLib) (st : ServerState)
    (h : Reachable lib st) : RoomInvariant st := by
  induction h with
  | init => intro p hp; cases hp
  | step st₀ op hr ih => exact roomInvariant_step lib st₀ op ih

theorem turnOK_step (lib : ChessLib) (hlaw : lib.Lawful) (st : ServerState)
    (op : Op) (h : TurnCoherent lib st) : TurnCoherent lib (Op.step lib st op) := by
  cases op with
  | createRoom roomId hostId hostName settings odId now =>
    rcases hc : RoomManager.createRoom st roomId hostId hostName settings odId
        now with ⟨room, st'⟩
    rcases RoomManager.createRoom_spec st roomId hostId hostName settings odId
        now room st' hc with ⟨hroomdef, hrooms⟩
    show TurnCoherent lib (RoomManager.createRoom st roomId hostId hostName
      settings odId now).2
    rw [hc]
    unfold TurnCoherent
    rw [hrooms]
    refine RoomsTurnOK.turn_set_of h ?_
    rw [hroomdef]
    intro gs hgs
    cases hgs
  | joinRoom roomId playerId playerName odId now =>
    rcases hc : RoomManager.joinRoom st roomId playerId playerName odId now
        with ⟨res, st'⟩
    show TurnCoherent lib (RoomManager.joinRoom st roomId playerId playerName
      odId now).2
    rw [hc]
    rcases RoomManager.joinRoom_spec st roomId playerId playerName odId now res
        st' hc with ⟨-, hsame⟩ | ⟨room, hroom, -, -, -, -, -, -, hrooms⟩
    · rw [hsame]; exact h
    · unfold TurnCoherent
      rw [hrooms]
      refine RoomsTurnOK.turn_set_of h ?_
      intro gs hgs
      cases hgs
      show PlayerColor.white = lib.turn startFen
      exact hlaw.turn_start.symm
  | spectateRoom roomId spectatorId spectatorName odId now =>
    rcases hc : RoomManager.spectateRoom st roomId spectatorId spectatorName
        odId now with ⟨res, st'⟩
    show TurnCoherent lib (RoomManager.spectateRoom st roomId spectatorId
      spectatorName odId now).2
    rw [hc]
    rcases RoomManager.spectateRoom_spec st roomId spectatorId spectatorName
        odId now res st' hc with ⟨-, hsame, -⟩ | ⟨room, hroom, -, -, hrooms, -⟩
    · rw [hsame]; exact h
    · unfold TurnCoherent
      rw [hrooms]
      exact RoomsTurnOK.turn_set_of h (fun gs hgs => h.turn_lookup hroom hgs)
  | leaveRoom socketId odId =>
    rcases hc : RoomManager.leaveRoom st socketId odId with ⟨res, st'⟩
    show TurnCoherent lib (RoomManager.leaveRoom st socketId odId).2
    rw [hc]
    rcases RoomManager.leaveRoom_rooms st socketId odId res st' hc with
      hsame | ⟨rId, r, hmem, hrooms⟩ | ⟨room, ⟨rid₀, hmem⟩, hrooms⟩ |
      ⟨room, hrooms⟩
    · unfold TurnCoherent
      rw [hsame]; exact h
    · unfold TurnCoherent
      rw [hrooms]
      exact RoomsTurnOK.turn_set_of h (fun gs hgs => h (rId, r) hmem gs hgs)
    · unfold TurnCoherent
      rw [hrooms]
      refine RoomsTurnOK.turn_set_of h ?_
      intro gs' hgs'
      rcases Option.map_eq_some'.mp hgs' with ⟨gs, hgs, hmap⟩
      have := h.turn_lookup hmem hgs
      rw [← hmap]
      exact this
    · unfold TurnCoherent
      rw [hrooms]
      exact RoomsTurnOK.turn_del_of h
  | makeMove roomId socketId fromSq toSq promotion odId now =>
    rcases hc : RoomManager.makeMove lib st roomId socketId fromSq toSq
        promotion odId now with ⟨res, st'⟩
    show TurnCoherent lib (RoomManager.makeMove lib st roomId socketId fromSq
      toSq promotion odId now).2
    rw [hc]
    rcases RoomManager.makeMove_spec lib st roomId socketId fromSq toSq
        promotion odId now res st' hc with ⟨-, hsame, -⟩ |
        ⟨-, room, gs, mv, engine', final, hroom, hstate, hgs, -, -, hmk,
          hfinal, -, -, hst'⟩
    · rw [hsame]; exact h
    · rw [hst']
      unfold TurnCoherent
      refine RoomsTurnOK.turn_set_of h ?_
      intro gs' hgs'
      cases hgs'
      rcases ChessEngine.mkMove_some hmk with ⟨r, -, -, -, hlib, -⟩
      rw [hfinal, RoomManager.finishMove_turn, RoomManager.finishMove_fen]
      unfold ChessEngine.getTurn ChessEngine.getFen
      rw [hlib]
      rfl
  | resign roomId socketId odId now =>
    rcases hc : RoomManager.resign st roomId socketId odId now with ⟨res, st'⟩
    show TurnCoherent lib (RoomManager.resign st roomId socketId odId now).2
    rw [hc]
    rcases RoomManager.resign_spec st roomId socketId odId now res st' hc with
      ⟨-, hsame⟩ | ⟨room, gs, hroom, -, hgs, -, hrooms⟩
    · rw [hsame]; exact h
    · unfold TurnCoherent
      rw [hrooms]
      refine RoomsTurnOK.turn_set_of h ?_
      intro gs' hgs'
      cases hgs'
      have hold := h.turn_lookup hroom hgs
      exact hold
  | offerDraw roomId socketId odId =>
    show TurnCoherent lib (Handlers.offerDraw st roomId socketId odId).2
    unfold TurnCoherent
    rw [Handlers.offerDraw_rooms]
    exact h
  | acceptDraw roomId socketId odId now =>
    show TurnCoherent lib (Handlers.acceptDraw st roomId socketId odId now).2
    unfold TurnCoherent
    rcases Handlers.acceptDraw_rooms st roomId socketId odId now with
      hsame | hdraw
    · rw [hsame]; exact h
    · rw [hdraw]
      rcases hc : RoomManager.drawGame st roomId now with ⟨res, st1⟩
      rcases RoomManager.drawGame_spec st roomId now res st1 hc with
        ⟨-, hsame⟩ | ⟨room, gs, hroom, -, hgs, -, hst'⟩
      · rw [hsame]; exact h
      · rw [hst']
        refine RoomsTurnOK.turn_set_of h ?_
        intro gs' hgs'
        cases hgs'
        have hold := h.turn_lookup hroom hgs
        exact hold
  | declineDraw roomId socketId odId =>
    exact h
  | roomKick roomId socketId targetId =>
    exact h
  | kickSpectator roomId hostId targetId =>
    rcases hc : RoomManager.kickSpectator st roomId hostId targetId
        with ⟨res, st'⟩
    show TurnCoherent lib (RoomManager.kickSpectator st roomId hostId
      targetId).2
    rw [hc]
    rcases RoomManager.kickSpectator_spec st roomId hostId targetId res st' hc
        with ⟨-, hsame, -⟩ | ⟨-, room, hroom, -, -, -, -, hst'⟩
    · rw [hsame]; exact h
    · rw [hst']
      unfold TurnCoherent
      rw [RoomManager.removeUserSession_rooms]
      exact RoomsTurnOK.turn_set_of h (fun gs hgs => h.turn_lookup hroom hgs)
  | setRoomLocked roomId hostId locked now =>
    rcases hc : RoomManager.setRoomLocked st roomId hostId locked now
        with ⟨ok, st'⟩
    show TurnCoherent lib (RoomManager.setRoomLocked st roomId hostId locked
      now).2
    rw [hc]
    rcases RoomManager.setRoomLocked_spec st roomId hostId locked now ok st' hc
        with ⟨-, hsame⟩ | ⟨-, room, hroom, -, hst'⟩
    · rw [hsame]; exact h
    · rw [hst']
      exact RoomsTurnOK.turn_set_of h (fun gs hgs => h.turn_lookup hroom hgs)
  | updateRoomSettings roomId hostId settings now =>
    rcases hc : RoomManager.updateRoomSettings st roomId hostId settings now
        with ⟨ok, st'⟩
    show TurnCoherent lib (RoomManager.updateRoomSettings st roomId hostId
      settings now).2
    rw [hc]
    rcases RoomManager.updateRoomSettings_spec st roomId hostId settings now ok
        st' hc with ⟨-, hsame⟩ | ⟨-, room, hroom, -, hst'⟩
    · rw [hsame]; exact h
    · rw [hst']
      exact RoomsTurnOK.turn_set_of h (fun gs hgs => h.turn_lookup hroom hgs)

theorem reachable_turnCoherent (lib : ChessLib) (hlaw : lib.Lawful)
    (st : ServerState) (h : Reachable lib st) : TurnCoherent lib st := by
  induction h with
  | init => intro p hp; cases hp
  | step st₀ op hr ih => exact turnOK_step lib hlaw st₀ op ih

/-- The side to move of the two positions of the test oracle. -/
def testTurn (fen : String) : PlayerColor :=
  if fen = "test-black-to-move" then .black else .white

/-- A two-position test oracle standing in for the chess library in concrete
evaluations: every move succeeds and alternates the side to move; no position
is ever game over. -/
def testLib : ChessLib :=
  { move := fun fen _ _ _ => some
      { san := "x"
        after := if testTurn fen = PlayerColor.white then "test-black-to-move"
          else "test-white-to-move"
        promotion := none }
    turn := testTurn
    isGameOver := fun _ => false
    isCheckmate := fun _ => false
    isStalemate := fun _ => false
    isDraw := fun _ => false }

theorem testLib_lawful : testLib.Lawful := by
  constructor
  · intro fen f t p r h
    simp only [testLib] at h
    cases h
    by_cases hf : fen = "test-black-to-move"
    · subst hf
      decide
    · simp only [testLib, testTurn, if_neg hf]
      decide
  · show testTurn startFen = PlayerColor.white
    decide

/-- **C10.** For every caller (player, spectator or outsider) and every
roomId, the `game:decline-draw` handler reports success and clears the
draw-offer slot for that roomId, checking neither that the room exists, nor
that an offer is pending, nor that the caller is a player of that room; no
other server state is touched, so any connection can clear any game's
pending draw offer. -/
theorem C10_declineDraw_unconditional (st : ServerState)
    (roomId socketId : String) (odId : Option String) :
    (Handlers.declineDraw st roomId socketId odId).1.success = true ∧
    (Handlers.declineDraw st roomId socketId odId).1.error = none ∧
    SMap.get? (Handlers.declineDraw st roomId socketId odId).2.drawOffers
      roomId = none ∧
    (Handlers.declineDraw st roomId socketId odId).2.rooms = st.rooms ∧
    (Handlers.declineDraw st roomId socketId odId).2.userSessions
      = st.userSessions := by
  refine ⟨rfl, rfl, ?_, rfl, rfl⟩
  exact SMap.get?_del_self _ _

/-- **C7.** A connection that supplies no token gets an empty
`socket.data` from the authentication middleware regardless of any supplied
guest id: the resolved identity used by all room operations is the socket id
itself, never `guest:<guest id>` - the middleware ignores `guestId`
entirely, so a guest participant's identity does not survive reconnection. -/
theorem C7_guest_identity_ignored
    (verifyAccessToken : String → Option DecodedToken)
    (authServiceEnabled : Bool) (hs : HandshakeAuth) (socketId : String)
    (htok : hs.token = none) :
    (socketAuthMiddleware verifyAccessToken authServiceEnabled hs).userId
      = none ∧
    effectiveIdentity (socketAuthMiddleware verifyAccessToken
      authServiceEnabled hs) socketId = socketId ∧
    (∀ gid, hs.guestId = some gid → socketId ≠ "guest:" ++ gid →
      effectiveIdentity (socketAuthMiddleware verifyAccessToken
        authServiceEnabled hs) socketId ≠ "guest:" ++ gid) := by
  unfold socketAuthMiddleware
  rw [htok]
  exact ⟨rfl, rfl, fun gid _ hne => hne⟩

/-- Witness for C7: a guest connection with guest id `guest_1234` on socket
`SOCKA` resolves to identity `SOCKA`, not `guest:guest_1234`. -/
theorem C7_witness :
    ({ token := none, guestId := some "guest_1234" } : HandshakeAuth).token
      = none ∧
    ((socketAuthMiddleware (fun _ => none) true
        { token := none, guestId := some "guest_1234" }).userId = none ∧
      effectiveIdentity (socketAuthMiddleware (fun _ => none) true
        { token := none, guestId := some "guest_1234" }) "SOCKA" = "SOCKA" ∧
      (∀ gid,
        ({ token := none, guestId := some "guest_1234" } : HandshakeAuth).guestId
          = some gid → "SOCKA" ≠ "guest:" ++ gid →
        effectiveIdentity (socketAuthMiddleware (fun _ => none) true
          { token := none, guestId := some "guest_1234" }) "SOCKA"
          ≠ "guest:" ++ gid)) :=
  ⟨rfl, C7_guest_identity_ignored (fun _ => none) true
    { token := none, guestId := some "guest_1234" } "SOCKA" rfl⟩

/-- **C9.** `spectateRoom` is idempotent for the same identity: admitting the
same identity as spectator twice in succession leaves every room's
spectators map with the same size as admitting it once, and (with the same
display name) leaves the spectators map itself unchanged. -/
theorem C9_spectate_idempotent (st : ServerState) (roomId spectatorId : String)
    (name1 name2 : String) (odId : Option String) (now1 now2 : Nat)
    (r1 : Option Room) (st1 : ServerState) (r2 : Option Room)
    (st2 : ServerState)
    (h1 : RoomManager.spectateRoom st roomId spectatorId name1 odId now1
      = (r1, st1))
    (h2 : RoomManager.spectateRoom st1 roomId spectatorId name2 odId now2
      = (r2, st2)) :
    (∀ rid, (SMap.get? st2.rooms rid).map (fun r => SMap.size r.spectators)
        = (SMap.get? st1.rooms rid).map (fun r => SMap.size r.spectators)) ∧
    (name1 = name2 →
      ∀ rid, (SMap.get? st2.rooms rid).map Room.spectators
        = (SMap.get? st1.rooms rid).map Room.spectators) := by
  rcases RoomManager.spectateRoom_spec st roomId spectatorId name1 odId now1
      r1 st1 h1 with ⟨-, hst1, hreason⟩ |
      ⟨room, hroom, hallow, -, hrooms1, -⟩
  · subst hst1
    rcases RoomManager.spectateRoom_spec _ _ _ _ _ _ _ _ h2 with
      ⟨-, hst2, -⟩ | ⟨room', hroom', hallow', -, -, -⟩
    · subst hst2
      exact ⟨fun _ => rfl, fun _ _ => rfl⟩
    · exfalso
      rcases hreason with hnone | ⟨room₀, hroom₀, hnall⟩
      · rw [hnone] at hroom'
        cases hroom'
      · rw [hroom₀] at hroom'
        cases hroom'
        rw [hallow'] at hnall
        cases hnall
  · rcases RoomManager.spectateRoom_spec _ _ _ _ _ _ _ _ h2 with
      ⟨-, hst2, hreason2⟩ | ⟨room1, hroom1, -, -, hrooms2, -⟩
    · exfalso
      rcases hreason2 with hnone | ⟨room₀, hroom₀, hnall⟩
      · rw [hrooms1, SMap.get?_set_self] at hnone
        cases hnone
      · rw [hrooms1, SMap.get?_set_self] at hroom₀
        cases hroom₀
        dsimp only at hnall
        rw [hallow] at hnall
        cases hnall
    · rw [hrooms1, SMap.get?_set_self] at hroom1
      cases hroom1
      constructor
      · intro rid
        by_cases hr : rid = roomId
        · subst hr
          rw [hrooms2, hrooms1, SMap.get?_set_self, SMap.get?_set_self]
          simp only [Option.map_some']
          congr 1
          show SMap.size (SMap.set (SMap.set room.spectators
            (odId.getD spectatorId) name1) (odId.getD spectatorId) name2) = _
          exact SMap.size_set_of_hasKey _ _ _ (SMap.hasKey_set_self _ _ _)
        · rw [hrooms2, hrooms1]
          rw [SMap.get?_set_ne _ _ _ _ hr, SMap.get?_set_ne _ _ _ _ hr]
      · intro hname rid
        subst hname
        by_cases hr : rid = roomId
        · subst hr
          rw [hrooms2, hrooms1, SMap.get?_set_self, SMap.get?_set_self]
          simp only [Option.map_some']
          congr 1
          show SMap.set (SMap.set room.spectators
            (odId.getD spectatorId) name1) (odId.getD spectatorId) name1 = _
          exact SMap.set_set_same _ _ _
        · rw [hrooms2, hrooms1]
          rw [SMap.get?_set_ne _ _ _ _ hr, SMap.get?_set_ne _ _ _ _ hr]

/-- Witness for C9: spectating twice in a fresh room. -/
theorem C9_witness :
    (∀ rid,
      (SMap.get? (RoomManager.spectateRoom
        (RoomManager.spectateRoom
          (RoomManager.createRoom ServerState.init "R9" "H9" "Host" {} none
            0).2 "R9" "S9" "Spec" none 1).2 "R9" "S9" "Spec" none 2).2.rooms
        rid).map (fun r => SMap.size r.spectators)
      = (SMap.get? (RoomManager.spectateRoom
          (RoomManager.createRoom ServerState.init "R9" "H9" "Host" {} none
            0).2 "R9" "S9" "Spec" none 1).2.rooms rid).map
          (fun r => SMap.size r.spectators)) ∧
    ("Spec" = "Spec" →
      ∀ rid,
      (SMap.get? (RoomManager.spectateRoom
        (RoomManager.spectateRoom
          (RoomManager.createRoom ServerState.init "R9" "H9" "Host" {} none
            0).2 "R9" "S9" "Spec" none 1).2 "R9" "S9" "Spec" none 2).2.rooms
        rid).map Room.spectators
      = (SMap.get? (RoomManager.spectateRoom
          (RoomManager.createRoom ServerState.init "R9" "H9" "Host" {} none
            0).2 "R9" "S9" "Spec" none 1).2.rooms rid).map Room.spectators) :=
  C9_spectate_idempotent
    (RoomManager.createRoom ServerState.init "R9" "H9" "Host" {} none 0).2
    "R9" "S9" "Spec" "Spec" none 1 2 _ _ _ _ rfl rfl

theorem SMap.hasKey_del_self {α : Type} (m : SMap α) (k : String) :
    SMap.hasKey (SMap.del m k) k = false := by
  unfold SMap.hasKey SMap.del
  rw [Bool.eq_false_iff]
  intro hany
  rcases List.any_eq_true.mp hany with ⟨p, hp, hpk⟩
  have h1 := List.of_mem_filter hp
  simp only [decide_eq_true_eq] at h1 hpk
  exact h1 hpk

/-- The server state after host `H4` creates room `R4`. -/
def c4afterCreate : ServerState :=
  (RoomManager.createRoom ServerState.init "R4" "H4" "Host" {} none 0).2

/-- The server state after the host then locks `R4`. -/
def c4afterLock : ServerState :=
  (RoomManager.setRoomLocked c4afterCreate "R4" "H4" true 1).2

/-- **C4 counterexample.** The host locks room `R4`; per the claim a
third identity's join that supplies the matching password must then succeed,
but `setRoomLocked` accepts no password, none is ever stored
(`passwordHash` stays `none`), the `room:lock` payload has no password
field, and `joinRoom` takes no password argument and rejects every join to a
locked room - so the join fails and no state changes. -/
theorem C4_counterexample :
    (RoomManager.setRoomLocked c4afterCreate "R4" "H4" true 1).1 = true ∧
    (SMap.get? c4afterLock.rooms "R4").map (fun r => r.settings.isLocked)
      = some true ∧
    (SMap.get? c4afterLock.rooms "R4").map (fun r => r.settings.passwordHash)
      = some none ∧
    (RoomManager.joinRoom c4afterLock "R4" "S3" "Third" none 2).1 = none ∧
    (RoomManager.joinRoom c4afterLock "R4" "S3" "Third" none 2).2
      = c4afterLock := by
  refine ⟨rfl, rfl, rfl, rfl, rfl⟩

/-- **C4 (amended).** Locking takes no password and stores none: a
successful `setRoomLocked` requires the caller to be the host, flips only
`isLocked` (leaving `passwordHash` untouched - nothing ever writes it), and
while a room is locked every join request fails with the generic join
failure and mutates nothing; there is no password_required or
password_incorrect path. -/
theorem C4_amended_lock_blocks_all_joins (st : ServerState)
    (roomId hostId : String) (locked : Bool) (now : Nat) (ok : Bool)
    (st' : ServerState)
    (heq : RoomManager.setRoomLocked st roomId hostId locked now = (ok, st')) :
    (ok = true → ∃ room, SMap.get? st.rooms roomId = some room ∧
      room.hostId = hostId ∧
      ∃ room', SMap.get? st'.rooms roomId = some room' ∧
        room'.settings.isLocked = locked ∧
        room'.settings.passwordHash = room.settings.passwordHash) ∧
    (ok = false → st' = st) ∧
    (∀ (st₂ : ServerState) (rid pid pname : String) (oid : Option String)
        (n : Nat) (room₂ : Room),
      SMap.get? st₂.rooms rid = some room₂ →
      room₂.settings.isLocked = true →
      (RoomManager.joinRoom st₂ rid pid pname oid n).1 = none ∧
      (RoomManager.joinRoom st₂ rid pid pname oid n).2 = st₂) := by
  refine ⟨?_, ?_, ?_⟩
  · intro hok
    rcases RoomManager.setRoomLocked_spec st roomId hostId locked now ok st'
        heq with ⟨hf, -⟩ | ⟨-, room, hroom, hhost, hst'⟩
    · rw [hok] at hf; cases hf
    · refine ⟨room, hroom, hhost,
        { room with settings := { room.settings with isLocked := locked },
                    lastActivity := now }, ?_, rfl, rfl⟩
      rw [hst']
      exact SMap.get?_set_self _ _ _
  · intro hok
    rcases RoomManager.setRoomLocked_spec st roomId hostId locked now ok st'
        heq with ⟨-, hsame⟩ | ⟨ht, -⟩
    · exact hsame
    · rw [hok] at ht; cases ht
  · intro st₂ rid pid pname oid n room₂ hroom₂ hlock₂
    rcases hj : RoomManager.joinRoom st₂ rid pid pname oid n with ⟨res₂, st₂'⟩
    rcases RoomManager.joinRoom_spec st₂ rid pid pname oid n res₂ st₂' hj with
      ⟨hres, hsame⟩ | ⟨room₃, hroom₃, -, -, -, -, hunlocked, -, -⟩
    · exact ⟨hres, hsame⟩
    · exfalso
      rw [hroom₂] at hroom₃
      cases hroom₃
      rw [hlock₂] at hunlocked
      cases hunlocked

/-- Witness for the amended C4: the concrete lock of `R4` succeeds and the
subsequent join fails. -/
theorem C4_amended_witness :
    ((true : Bool) = true → ∃ room,
      SMap.get? c4afterCreate.rooms "R4" = some room ∧
      room.hostId = "H4" ∧
      ∃ room', SMap.get? c4afterLock.rooms "R4" = some room' ∧
        room'.settings.isLocked = true ∧
        room'.settings.passwordHash = room.settings.passwordHash) ∧
    ((true : Bool) = false → c4afterLock = c4afterCreate) ∧
    (∀ (st₂ : ServerState) (rid pid pname : String) (oid : Option String)
        (n : Nat) (room₂ : Room),
      SMap.get? st₂.rooms rid = some room₂ →
      room₂.settings.isLocked = true →
      (RoomManager.joinRoom st₂ rid pid pname oid n).1 = none ∧
      (RoomManager.joinRoom st₂ rid pid pname oid n).2 = st₂) :=
  C4_amended_lock_blocks_all_joins c4afterCreate "R4" "H4" true 1 true
    c4afterLock rfl

/-- **C5.** `RoomManager.kickSpectator` implements the claimed policy - a
kick succeeds exactly when the host targets a spectator, which is then
removed from the spectators map with its user session discarded, while a
kick aimed at the opponent is rejected with the cannot-kick-players reason
and no state change - but the `room:kick` socket handler invokes the
nonexistent `roomManager.kickPlayer`, so over the wire every kick request
fails and this policy is unreachable. -/
theorem C5_kick_policy (st : ServerState) (roomId hostId targetId : String)
    (res : KickResult) (st' : ServerState)
    (heq : RoomManager.kickSpectator st roomId hostId targetId = (res, st')) :
    (res.success = true →
      ∃ room, SMap.get? st.rooms roomId = some room ∧
        room.hostId = hostId ∧
        SMap.hasKey room.spectators targetId = true ∧
        room.opponentId ≠ some targetId ∧
        ∃ room', SMap.get? st'.rooms roomId = some room' ∧
          SMap.hasKey room'.spectators targetId = false ∧
          SMap.get? st'.userSessions targetId = none) ∧
    (∀ room, SMap.get? st.rooms roomId = some room → room.hostId = hostId →
      targetId ≠ hostId → room.opponentId = some targetId →
      res.success = false ∧
      res.reason = some "Cannot kick players. Only spectators can be kicked." ∧
      st' = st) ∧
    ((Handlers.roomKick st roomId hostId targetId).1.success = false ∧
     (Handlers.roomKick st roomId hostId targetId).2 = st) := by
  refine ⟨?_, ?_, rfl, rfl⟩
  · intro hsucc
    rcases RoomManager.kickSpectator_spec st roomId hostId targetId res st'
        heq with ⟨hf, -, -⟩ | ⟨-, room, hroom, hhost, hself, hopp, hspec, hst'⟩
    · rw [hsucc] at hf; cases hf
    · refine ⟨room, hroom, hhost, hspec, hopp,
        { room with spectators := SMap.del room.spectators targetId },
        ?_, ?_, ?_⟩
      · rw [hst', RoomManager.removeUserSession_rooms]
        exact SMap.get?_set_self _ _ _
      · exact SMap.hasKey_del_self _ _
      · rw [hst']
        exact RoomManager.removeUserSession_gone _ _
  · intro room hroom hhost hne hopp
    have hcomp : RoomManager.kickSpectator st roomId hostId targetId
        = ({ success := false,
             reason := some
               "Cannot kick players. Only spectators can be kicked." }, st) := by
      unfold RoomManager.kickSpectator
      simp only [hroom]
      rw [if_neg (not_not_intro hhost), if_neg hne, if_pos hopp]
    rw [heq] at hcomp
    cases hcomp
    exact ⟨rfl, rfl, rfl⟩

/-- The server state for the C5 witness: host `H5` created room `R5` and
`S5` spectates. -/
def c5st : ServerState :=
  (RoomManager.spectateRoom
    (RoomManager.createRoom ServerState.init "R5" "H5" "Host" {} none 0).2
    "R5" "S5" "Spec" none 1).2

/-- Witness for C5 at a concrete state with a real spectator. -/
theorem C5_witness :
    (((RoomManager.kickSpectator c5st "R5" "H5" "S5").1.success = true →
      ∃ room, SMap.get? c5st.rooms "R5" = some room ∧
        room.hostId = "H5" ∧
        SMap.hasKey room.spectators "S5" = true ∧
        room.opponentId ≠ some "S5" ∧
        ∃ room', SMap.get? (RoomManager.kickSpectator c5st "R5" "H5"
            "S5").2.rooms "R5" = some room' ∧
          SMap.hasKey room'.spectators "S5" = false ∧
          SMap.get? (RoomManager.kickSpectator c5st "R5" "H5"
            "S5").2.userSessions "S5" = none) ∧
    (∀ room, SMap.get? c5st.rooms "R5" = some room → room.hostId = "H5" →
      "S5" ≠ "H5" → room.opponentId = some "S5" →
      (RoomManager.kickSpectator c5st "R5" "H5" "S5").1.success = false ∧
      (RoomManager.kickSpectator c5st "R5" "H5" "S5").1.reason = some
        "Cannot kick players. Only spectators can be kicked." ∧
      (RoomManager.kickSpectator c5st "R5" "H5" "S5").2 = c5st) ∧
    ((Handlers.roomKick c5st "R5" "H5" "S5").1.success = false ∧
     (Handlers.roomKick c5st "R5" "H5" "S5").2 = c5st)) ∧
    (RoomManager.kickSpectator c5st "R5" "H5" "S5").1.success = true :=
  ⟨C5_kick_policy c5st "R5" "H5" "S5" _ _ rfl, rfl⟩

/-- **C6.** Accepting a draw succeeds only for a player of the room who is
not the recorded offerer while the room is in progress; on success the game
status becomes draw with no winner, the room becomes finished, the
draw-offer slot is cleared, and every subsequent move on that room is
rejected. -/
theorem C6_accept_draw (lib : ChessLib) (st : ServerState)
    (roomId socketId : String) (odId : Option String) (now : Nat)
    (res : BaseResponse) (st' : ServerState)
    (heq : Handlers.acceptDraw st roomId socketId odId now = (res, st')) :
    res.success = true →
      ∃ offerer room gs, SMap.get? st.drawOffers roomId = some offerer ∧
        offerer ≠ odId.getD socketId ∧
        SMap.get? st.rooms roomId = some room ∧
        room.state = .in_progress ∧
        (room.hostId = odId.getD socketId ∨
          room.opponentId = some (odId.getD socketId)) ∧
        room.gameState = some gs ∧
        ∃ room', SMap.get? st'.rooms roomId = some room' ∧
          room'.state = .finished ∧
          room'.gameState = some ({ gs with status := GameStatus.draw, winner := none }) ∧
          SMap.get? st'.drawOffers roomId = none ∧
          (∀ (sock2 f t : String) (promo od2 : Option String) (n2 : Nat),
            (RoomManager.makeMove lib st' roomId sock2 f t promo od2
              n2).1.success = false) := by
  intro hsucc
  unfold Handlers.acceptDraw at heq
  cases hoff : SMap.get? st.drawOffers roomId with
  | none =>
    simp only [hoff] at heq
    cases heq
    simp at hsucc
  | some offerer =>
    simp only [hoff] at heq
    by_cases hself : offerer = odId.getD socketId
    · rw [if_pos hself] at heq
      cases heq
      simp at hsucc
    · rw [if_neg hself] at heq
      cases hroom : SMap.get? st.rooms roomId with
      | none =>
        simp only [hroom] at heq
        cases heq
        simp at hsucc
      | some room =>
        simp only [hroom] at heq
        by_cases hstate : room.state = RoomState.in_progress
        · rw [if_neg (not_not_intro hstate)] at heq
          by_cases hplayer : room.hostId = odId.getD socketId ∨
              room.opponentId = some (odId.getD socketId)
          · rw [if_neg (not_not_intro hplayer)] at heq
            rcases hdg : RoomManager.drawGame st roomId now with ⟨dres, st1⟩
            cases dres with
            | none =>
              simp only [hdg] at heq
              cases heq
              simp at hsucc
            | some gsr =>
              simp only [hdg] at heq
              cases heq
              rcases RoomManager.drawGame_spec st roomId now (some gsr) st1
                  hdg with ⟨hbad, -⟩ | ⟨roomD, gs, hroomD, -, hgs, -, hst1⟩
              · cases hbad
              · rw [hroom] at hroomD
                cases hroomD
                refine ⟨offerer, room, gs, rfl, hself, rfl, hstate, hplayer,
                  hgs,
                  { room with gameState := some ({ gs with status := GameStatus.draw, winner := none }), state := .finished, lastActivity := now },
                  ?_, rfl, rfl, ?_, ?_⟩
                · show SMap.get? ({ st1 with drawOffers := SMap.del st1.drawOffers roomId } : ServerState).rooms roomId = _
                  rw [hst1]
                  exact SMap.get?_set_self _ _ _
                · exact SMap.get?_del_self _ _
                · intro sock2 f t promo od2 n2
                  refine RoomManager.makeMove_not_in_progress lib _ roomId
                    sock2 f t promo od2 n2
                    ({ room with gameState := some ({ gs with status := GameStatus.draw, winner := none }), state := .finished, lastActivity := now })
                    ?_ ?_
                  · show SMap.get? ({ st1 with drawOffers := SMap.del st1.drawOffers roomId } : ServerState).rooms roomId = _
                    rw [hst1]
                    exact SMap.get?_set_self _ _ _
                  · intro hcon
                    cases hcon
          · rw [if_pos hplayer] at heq
            cases heq
            simp at hsucc
        · rw [if_pos hstate] at heq
          cases heq
          simp at hsucc

/-- The server state for the C6 witness: `H6` created room `R6`, `O6`
joined, and the host offered a draw. -/
def c6st : ServerState :=
  (Handlers.offerDraw
    (RoomManager.joinRoom
      (RoomManager.createRoom ServerState.init "R6" "H6" "Host" {} none 0).2
      "R6" "O6" "Opp" none 1).2
    "R6" "H6" none).2

/-- Witness for C6: the opponent accepts the host's draw offer. -/
theorem C6_witness :
    ((Handlers.acceptDraw c6st "R6" "O6" none 2).1.success = true →
      ∃ offerer room gs, SMap.get? c6st.drawOffers "R6" = some offerer ∧
        offerer ≠ (none : Option String).getD "O6" ∧
        SMap.get? c6st.rooms "R6" = some room ∧
        room.state = .in_progress ∧
        (room.hostId = (none : Option String).getD "O6" ∨
          room.opponentId = some ((none : Option String).getD "O6")) ∧
        room.gameState = some gs ∧
        ∃ room', SMap.get? (Handlers.acceptDraw c6st "R6" "O6" none
            2).2.rooms "R6" = some room' ∧
          room'.state = .finished ∧
          room'.gameState = some ({ gs with status := GameStatus.draw, winner := none }) ∧
          SMap.get? (Handlers.acceptDraw c6st "R6" "O6" none
            2).2.drawOffers "R6" = none ∧
          (∀ (sock2 f t : String) (promo od2 : Option String) (n2 : Nat),
            (RoomManager.makeMove testLib (Handlers.acceptDraw c6st "R6" "O6"
              none 2).2 "R6" sock2 f t promo od2 n2).1.success = false)) ∧
    (Handlers.acceptDraw c6st "R6" "O6" none 2).1.success = true :=
  ⟨C6_accept_draw testLib c6st "R6" "O6" none 2 _ _ rfl, rfl⟩

/-- The clock of a given side. -/
def GameState.clockOf (gs : GameState) : PlayerColor → Option Int
  | .white => gs.whiteTime
  | .black => gs.blackTime

theorem RoomManager.chargeClock_charged (settings : RoomSettings)
    (gs : GameState) (pc : PlayerColor) (roomState : RoomState) (now : Nat)
    (tc : TimeControl) (lm : Nat) (wt : Int)
    (htc : settings.timeControl = some tc) (hlm : gs.lastMoveAt = some lm)
    (hlm0 : lm ≠ 0) (hwt : gs.clockOf pc = some wt) :
    ((RoomManager.chargeClock settings gs pc roomState now).1.clockOf pc
      = some (wt - ((now : Int) - (lm : Int)) + (tc.increment : Int) * 1000)) ∧
    (wt - ((now : Int) - (lm : Int)) + (tc.increment : Int) * 1000 ≤ 0 →
      (RoomManager.chargeClock settings gs pc roomState now).1.status
        = .timeout ∧
      (RoomManager.chargeClock settings gs pc roomState now).1.winner
        = some pc.other ∧
      (RoomManager.chargeClock settings gs pc roomState now).2 = .finished) ∧
    (¬ (wt - ((now : Int) - (lm : Int)) + (tc.increment : Int) * 1000 ≤ 0) →
      (RoomManager.chargeClock settings gs pc roomState now).1.status
        = gs.status ∧
      (RoomManager.chargeClock settings gs pc roomState now).2 = roomState) := by
  unfold RoomManager.chargeClock
  cases pc with
  | white =>
    have hwt' : gs.whiteTime = some wt := hwt
    simp only [htc, hlm, hwt']
    rw [if_pos hlm0]
    rw [if_pos trivial]
    by_cases hle : wt - ((now : Int) - (lm : Int))
        + (tc.increment : Int) * 1000 ≤ 0
    · rw [if_pos hle]
      exact ⟨rfl, fun _ => ⟨rfl, rfl, rfl⟩, fun hc => absurd hle hc⟩
    · rw [if_neg hle]
      exact ⟨rfl, fun hc => absurd hc hle, fun _ => ⟨rfl, rfl⟩⟩
  | black =>
    have hwt' : gs.blackTime = some wt := hwt
    simp only [htc, hlm, hwt']
    rw [if_pos hlm0]
    rw [if_neg (by intro hcon; cases hcon)]
    by_cases hle : wt - ((now : Int) - (lm : Int))
        + (tc.increment : Int) * 1000 ≤ 0
    · rw [if_pos hle]
      exact ⟨rfl, fun _ => ⟨rfl, rfl, rfl⟩, fun hc => absurd hle hc⟩
    · rw [if_neg hle]
      exact ⟨rfl, fun hc => absurd hc hle, fun _ => ⟨rfl, rfl⟩⟩

theorem RoomManager.finishMove_clockOf (engine' : ChessEngine)
    (move : MoveRecord) (charged : GameState × RoomState) (now : Nat)
    (pc : PlayerColor) :
    (RoomManager.finishMove engine' move charged now).1.clockOf pc
      = charged.1.clockOf pc := by
  unfold RoomManager.finishMove
  dsimp only
  split <;> cases pc <;> rfl

theorem RoomManager.finishMove_not_over (engine' : ChessEngine)
    (move : MoveRecord) (charged : GameState × RoomState) (now : Nat)
    (hno : ChessEngine.isGameOver engine' = false) :
    (RoomManager.finishMove engine' move charged now).1.status
      = charged.1.status ∧
    (RoomManager.finishMove engine' move charged now).1.winner
      = charged.1.winner ∧
    (RoomManager.finishMove engine' move charged now).2 = charged.2 := by
  unfold RoomManager.finishMove
  dsimp only
  rw [if_neg (by rw [hno]; intro hcon; cases hcon)]
  exact ⟨rfl, rfl, rfl⟩

/-- C2 fixtures: a time-controlled game (60 s + 2 s increment) built through
the room operations; white's first move at t=1000 is uncharged
(`lastMoveAt` is null at game start), black replies at t=2000. -/
def c2st0 : ServerState :=
  (RoomManager.createRoom ServerState.init "R2" "H2" "Host"
    { timeControl := some (some { initial := 60, increment := 2 }) }
    none 0).2

/-- C2 fixture after the opponent joins. -/
def c2st1 : ServerState :=
  (RoomManager.joinRoom c2st0 "R2" "O2" "Opp" none 0).2

/-- C2 fixture after white's first move. -/
def c2st2 : ServerState :=
  (RoomManager.makeMove testLib c2st1 "R2" "H2" "e2" "e4" none none 1000).2

/-- C2 fixture after black's reply. -/
def c2st3 : ServerState :=
  (RoomManager.makeMove testLib c2st2 "R2" "O2" "e7" "e5" none none 2000).2

/-- **C2 counterexample.** At t=62000 white moves with 60000 ms on the clock
and `lastMoveAt`=2000: the clock "became ≤ 0 at the charge"
(60000 − 60000 ≤ 0), so per the claim the final status must be `timeout` -
but the code adds the 2000 ms increment before testing, the post-increment
clock is 2000 > 0, and the game stays `active` with the room `in_progress`. -/
theorem C2_counterexample :
    (RoomManager.makeMove testLib c2st3 "R2" "H2" "g1" "f3" none none
      62000).1.success = true ∧
    ((SMap.get? c2st3.rooms "R2").bind Room.gameState).map GameState.whiteTime
      = some (some 60000) ∧
    ((SMap.get? c2st3.rooms "R2").bind Room.gameState).map GameState.lastMoveAt
      = some (some 2000) ∧
    (SMap.get? c2st3.rooms "R2").map (fun r => r.settings.timeControl)
      = some (some { initial := 60, increment := 2 }) ∧
    ((60000 : Int) - ((62000 : Int) - (2000 : Int)) ≤ 0) ∧
    ((RoomManager.makeMove testLib c2st3 "R2" "H2" "g1" "f3" none none
      62000).1.gameState).map GameState.status = some GameStatus.active ∧
    (SMap.get? (RoomManager.makeMove testLib c2st3 "R2" "H2" "g1" "f3" none
      none 62000).2.rooms "R2").map Room.state
      = some RoomState.in_progress := by
  exact ⟨rfl, rfl, rfl, rfl, by decide, rfl, rfl⟩

/-- **C2 (amended).** On every accepted move in a game with time control
enabled whose `lastMoveAt` is set (the first move of a game is never
charged) and whose mover clock is non-null, the mover's clock becomes
`old − (now − lastMoveAt) + increment·1000`; the move is recorded in every
case, and exactly when this post-increment value is ≤ 0 - not merely when
the clock reached zero before the increment - and the rules adapter does not
itself end the game, the final status is `timeout`, the winner is the other
side and the room becomes finished. -/
theorem C2_amended_clock_charge (lib : ChessLib) (st : ServerState)
    (roomId socketId fromSq toSq : String) (promotion : Option String)
    (odId : Option String) (now : Nat) (res : MoveOutcome) (st' : ServerState)
    (room : Room) (gs : GameState) (tc : TimeControl) (lm : Nat) (wt : Int)
    (heq : RoomManager.makeMove lib st roomId socketId fromSq toSq promotion
      odId now = (res, st'))
    (hsucc : res.success = true)
    (hroom : SMap.get? st.rooms roomId = some room)
    (hgs : room.gameState = some gs)
    (htc : room.settings.timeControl = some tc)
    (hlm : gs.lastMoveAt = some lm) (hlm0 : lm ≠ 0)
    (hwt : gs.clockOf (if room.hostId = odId.getD socketId
      then PlayerColor.white else PlayerColor.black) = some wt) :
    ∃ mv gs', res.move = some mv ∧ res.gameState = some gs' ∧
      gs'.moves = gs.moves ++ [mv] ∧
      gs'.clockOf (if room.hostId = odId.getD socketId
        then PlayerColor.white else PlayerColor.black)
        = some (wt - ((now : Int) - (lm : Int)) + (tc.increment : Int) * 1000) ∧
      (wt - ((now : Int) - (lm : Int)) + (tc.increment : Int) * 1000 ≤ 0 →
        lib.isGameOver mv.fen = false →
        gs'.status = .timeout ∧
        gs'.winner = some (if room.hostId = odId.getD socketId
          then PlayerColor.white else PlayerColor.black).other ∧
        ∃ room', SMap.get? st'.rooms roomId = some room' ∧
          room'.state = .finished) := by
  rcases RoomManager.makeMove_spec lib st roomId socketId fromSq toSq
      promotion odId now res st' heq with ⟨hf, -, -⟩ |
      ⟨-, room₀, gs₀, mv, engine', final, hroom₀, -, hgs₀, -, -, hmk, hfinal,
        hmv, hgsf, hst'⟩
  · rw [hsucc] at hf; cases hf
  · rw [hroom] at hroom₀
    cases hroom₀
    rw [hgs] at hgs₀
    cases hgs₀
    rcases ChessEngine.mkMove_some hmk with ⟨r, -, hmvfen, hefen, helib, -⟩
    have hcharge := RoomManager.chargeClock_charged room.settings gs
      (if room.hostId = odId.getD socketId then PlayerColor.white
        else PlayerColor.black) room.state now tc lm wt htc hlm hlm0 hwt
    refine ⟨mv, final.1, hmv, hgsf, ?_, ?_, ?_⟩
    · rw [hfinal, RoomManager.finishMove_moves, RoomManager.chargeClock_moves]
    · rw [hfinal, RoomManager.finishMove_clockOf]
      exact hcharge.1
    · intro hle hno
      have hno' : ChessEngine.isGameOver engine' = false := by
        unfold ChessEngine.isGameOver
        rw [helib]
        show lib.isGameOver engine'.fen = false
        rw [hefen, ← hmvfen]
        exact hno
      have hfo := RoomManager.finishMove_not_over engine' mv
        (RoomManager.chargeClock room.settings gs
          (if room.hostId = odId.getD socketId then PlayerColor.white
            else PlayerColor.black) room.state now) now hno'
      rcases hcharge.2.1 hle with ⟨hcs, hcw, hcr⟩
      refine ⟨?_, ?_, ?_⟩
      · rw [hfinal, hfo.1, hcs]
      · rw [hfinal, hfo.2.1, hcw]
      · refine ⟨{ room with gameState := some final.1, state := final.2, lastActivity := now }, ?_, ?_⟩
        · rw [hst']
          exact SMap.get?_set_self _ _ _
        · show final.2 = RoomState.finished
          rw [hfinal, hfo.2.2, hcr]

/-- Fallback room used only to destructure known-`some` lookups. -/
def emptyRoom : Room :=
  { roomId := "", hostId := "", hostName := "", opponentId := none,
    opponentName := none, spectators := [], state := .waiting_for_player,
    createdAt := 0, lastActivity := 0, gameState := none,
    settings := { timeControl := none, allowSpectators := true, allowJoin := true, isPrivate := false, isLocked := false } }

/-- The room of the C2 fixture after black's reply. -/
def c2room3 : Room :=
  (SMap.get? c2st3.rooms "R2").getD emptyRoom

/-- The game of the C2 fixture after black's reply. -/
def c2gs3 : GameState :=
  c2room3.gameState.getD (ChessEngine.createInitialGameState none 0)

/-- Witness for the amended C2: at t=120000 white's charged clock is
60000 − 118000 + 2000 = −56000 ≤ 0, so the move is recorded and the game
ends in a timeout with black the winner. -/
theorem C2_amended_witness :
    ∃ mv gs',
      (RoomManager.makeMove testLib c2st3 "R2" "H2" "g1" "f3" none none
        120000).1.move = some mv ∧
      (RoomManager.makeMove testLib c2st3 "R2" "H2" "g1" "f3" none none
        120000).1.gameState = some gs' ∧
      gs'.moves = c2gs3.moves ++ [mv] ∧
      gs'.clockOf (if c2room3.hostId = (none : Option String).getD "H2"
        then PlayerColor.white else PlayerColor.black)
        = some ((60000 : Int) - ((120000 : Int) - ((2000 : Nat) : Int))
          + (((2 : Nat) : Int)) * 1000) ∧
      ((60000 : Int) - ((120000 : Int) - ((2000 : Nat) : Int))
          + (((2 : Nat) : Int)) * 1000 ≤ 0 →
        testLib.isGameOver mv.fen = false →
        gs'.status = .timeout ∧
        gs'.winner = some (if c2room3.hostId
          = (none : Option String).getD "H2"
          then PlayerColor.white else PlayerColor.black).other ∧
        ∃ room', SMap.get? (RoomManager.makeMove testLib c2st3 "R2" "H2" "g1"
          "f3" none none 120000).2.rooms "R2" = some room' ∧
          room'.state = .finished) :=
  C2_amended_clock_charge testLib c2st3 "R2" "H2" "g1" "f3" none none 120000
    _ _ c2room3 c2gs3 { initial := 60, increment := 2 } 2000 60000
    rfl rfl rfl rfl rfl rfl (by decide) rfl

/-- **C1.** A move is accepted only when the requester (by persistent
identity) is the host or opponent of an existing in-progress room whose
embedded game is active and whose turn equals the requester's color (white
for host, black otherwise); rejections leave the state untouched and carry
an error.  On acceptance the turn before the move is the mover's color and
the turn after is the other color. -/
theorem C1_makeMove_guards_and_turn (lib : ChessLib) (st : ServerState)
    (roomId socketId fromSq toSq : String) (promotion : Option String)
    (odId : Option String) (now : Nat) (res : MoveOutcome) (st' : ServerState)
    (hlaw : lib.Lawful) (hreach : Reachable lib st)
    (heq : RoomManager.makeMove lib st roomId socketId fromSq toSq promotion
      odId now = (res, st')) :
    (res.success = false → st' = st ∧ res.error.isSome = true) ∧
    (res.success = true →
      ∃ room gs, SMap.get? st.rooms roomId = some room ∧
        room.gameState = some gs ∧
        (room.hostId = odId.getD socketId ∨
          room.opponentId = some (odId.getD socketId)) ∧
        room.state = .in_progress ∧
        gs.status = .active ∧
        gs.turn = (if room.hostId = odId.getD socketId
          then PlayerColor.white else PlayerColor.black) ∧
        ∃ room' gs', SMap.get? st'.rooms roomId = some room' ∧
          room'.gameState = some gs' ∧
          gs'.turn = gs.turn.other) := by
  rcases RoomManager.makeMove_spec lib st roomId socketId fromSq toSq
      promotion odId now res st' heq with ⟨hf, hsame, herr⟩ |
      ⟨ht, room, gs, mv, engine', final, hroom, hstate, hgs, hplayer, hturn,
        hmk, hfinal, hmv, hgsf, hst'⟩
  · constructor
    · intro _
      exact ⟨hsame, herr⟩
    · intro hs
      rw [hs] at hf
      cases hf
  · constructor
    · intro hs
      rw [ht] at hs
      cases hs
    · intro _
      have hinv := reachable_roomInvariant lib st hreach
      have hco := reachable_turnCoherent lib hlaw st hreach
      have hgood := hinv.lookup hroom
      rcases (hgood.1 hstate).2 with ⟨gs₀, hgs₀, hact⟩
      rw [hgs] at hgs₀
      cases hgs₀
      refine ⟨room, gs, hroom, hgs, hplayer, hstate, hact, hturn,
        { room with gameState := some final.1, state := final.2, lastActivity := now },
        final.1, ?_, rfl, ?_⟩
      · rw [hst']
        exact SMap.get?_set_self _ _ _
      · rcases ChessEngine.mkMove_some hmk with ⟨r, hmove, hmvfen, hefen,
          helib, -⟩
        rw [hfinal, RoomManager.finishMove_turn]
        unfold ChessEngine.getTurn
        rw [helib]
        show lib.turn engine'.fen = gs.turn.other
        rw [hefen]
        have hflip := hlaw.turn_flip gs.fen fromSq toSq promotion r hmove
        rw [hflip]
        have hcoh := hco.turn_lookup hroom hgs
        rw [← hcoh]

/-- The C1 witness state: host `H1` created room `R1` and `O1` joined, both
through the operation relation, so the state is reachable. -/
def c1st : ServerState :=
  Op.step testLib
    (Op.step testLib ServerState.init (Op.createRoom "R1" "H1" "Host" {} none 0))
    (Op.joinRoom "R1" "O1" "Opp" none 0)

/-- Witness for C1: white's first move in the reachable two-player room. -/
theorem C1_witness :
    (((RoomManager.makeMove testLib c1st "R1" "H1" "a2" "a3" none none
        5).1.success = false →
      (RoomManager.makeMove testLib c1st "R1" "H1" "a2" "a3" none none 5).2
        = c1st ∧
      (RoomManager.makeMove testLib c1st "R1" "H1" "a2" "a3" none none
        5).1.error.isSome = true) ∧
    ((RoomManager.makeMove testLib c1st "R1" "H1" "a2" "a3" none none
        5).1.success = true →
      ∃ room gs, SMap.get? c1st.rooms "R1" = some room ∧
        room.gameState = some gs ∧
        (room.hostId = (none : Option String).getD "H1" ∨
          room.opponentId = some ((none : Option String).getD "H1")) ∧
        room.state = .in_progress ∧
        gs.status = .active ∧
        gs.turn = (if room.hostId = (none : Option String).getD "H1"
          then PlayerColor.white else PlayerColor.black) ∧
        ∃ room' gs', SMap.get? (RoomManager.makeMove testLib c1st "R1" "H1"
            "a2" "a3" none none 5).2.rooms "R1" = some room' ∧
          room'.gameState = some gs' ∧
          gs'.turn = gs.turn.other)) ∧
    (RoomManager.makeMove testLib c1st "R1" "H1" "a2" "a3" none none
      5).1.success = true :=
  ⟨C1_makeMove_guards_and_turn testLib c1st "R1" "H1" "a2" "a3" none none 5
      _ _ testLib_lawful
      (Reachable.step _ _ (Reachable.step _ _ Reachable.init)) rfl,
    rfl⟩

/-- Whether an operation is a join request. -/
def Op.isJoin : Op → Prop
  | .joinRoom _ _ _ _ _ => True
  | _ => False

/-- No operation other than a join can make a game appear: if no room of the
state holds a game, then after any non-join operation no room holds a game. -/
theorem step_no_new_game (lib : ChessLib) (st₀ : ServerState) (op : Op)
    (hclean : ∀ p ∈ st₀.rooms, (p : String × Room).2.gameState = none)
    (hnj : ¬ Op.isJoin op) :
    ∀ q ∈ (Op.step lib st₀ op).rooms,
      (q : String × Room).2.gameState = none := by
  cases op with
  | createRoom roomId hostId hostName settings odId now =>
    rcases hc : RoomManager.createRoom st₀ roomId hostId hostName settings odId
        now with ⟨room, st'⟩
    show ∀ q ∈ (RoomManager.createRoom st₀ roomId hostId hostName settings odId
      now).2.rooms, (q : String × Room).2.gameState = none
    rw [hc]
    rcases RoomManager.createRoom_spec st₀ roomId hostId hostName settings odId
        now room st' hc with ⟨hroomdef, hrooms⟩
    rw [hrooms]
    intro q hq
    rcases SMap.mem_set hq with hq1 | hq1
    · rw [hq1]
      show room.gameState = none
      rw [hroomdef]
    · exact hclean q hq1
  | joinRoom roomId playerId playerName odId now =>
    exact absurd trivial hnj
  | spectateRoom roomId spectatorId spectatorName odId now =>
    rcases hc : RoomManager.spectateRoom st₀ roomId spectatorId spectatorName
        odId now with ⟨res, st'⟩
    show ∀ q ∈ (RoomManager.spectateRoom st₀ roomId spectatorId spectatorName
      odId now).2.rooms, (q : String × Room).2.gameState = none
    rw [hc]
    rcases RoomManager.spectateRoom_spec st₀ roomId spectatorId spectatorName
        odId now res st' hc with ⟨-, hsame, -⟩ | ⟨room, hroom, -, -, hrooms, -⟩
    · rw [hsame]; exact hclean
    · rw [hrooms]
      intro q hq
      rcases SMap.mem_set hq with hq1 | hq1
      · rw [hq1]
        exact hclean (roomId, room) (SMap.get?_mem hroom)
      · exact hclean q hq1
  | leaveRoom socketId odId =>
    rcases hc : RoomManager.leaveRoom st₀ socketId odId with ⟨res, st'⟩
    show ∀ q ∈ (RoomManager.leaveRoom st₀ socketId odId).2.rooms,
      (q : String × Room).2.gameState = none
    rw [hc]
    rcases RoomManager.leaveRoom_rooms st₀ socketId odId res st' hc with
      hsame | ⟨rId, r, hmem, hrooms⟩ | ⟨room, ⟨rid₀, hget⟩, hrooms⟩ |
      ⟨room, hrooms⟩
    · rw [hsame]; exact hclean
    · rw [hrooms]
      intro q hq
      rcases SMap.mem_set hq with hq1 | hq1
      · rw [hq1]
        exact hclean (rId, r) hmem
      · exact hclean q hq1
    · rw [hrooms]
      intro q hq
      rcases SMap.mem_set hq with hq1 | hq1
      · rw [hq1]
        show room.gameState.map _ = none
        rw [hclean (rid₀, room) (SMap.get?_mem hget)]
        rfl
      · exact hclean q hq1
    · rw [hrooms]
      intro q hq
      exact hclean q (SMap.mem_del hq)
  | makeMove roomId socketId fromSq toSq promotion odId now =>
    rcases hc : RoomManager.makeMove lib st₀ roomId socketId fromSq toSq
        promotion odId now with ⟨res, st'⟩
    show ∀ q ∈ (RoomManager.makeMove lib st₀ roomId socketId fromSq toSq
      promotion odId now).2.rooms, (q : String × Room).2.gameState = none
    rw [hc]
    rcases RoomManager.makeMove_spec lib st₀ roomId socketId fromSq toSq
        promotion odId now res st' hc with ⟨-, hsame, -⟩ |
        ⟨-, room, gs, mv, engine', final, hroom, -, hgs, -, -, -, -, -, -, -⟩
    · rw [hsame]; exact hclean
    · have hnone := hclean (roomId, room) (SMap.get?_mem hroom)
      rw [hgs] at hnone
      cases hnone
  | resign roomId socketId odId now =>
    rcases hc : RoomManager.resign st₀ roomId socketId odId now with ⟨res, st'⟩
    show ∀ q ∈ (RoomManager.resign st₀ roomId socketId odId now).2.rooms,
      (q : String × Room).2.gameState = none
    rw [hc]
    rcases RoomManager.resign_spec st₀ roomId socketId odId now res st' hc with
      ⟨-, hsame⟩ | ⟨room, gs, hroom, -, hgs, -, -⟩
    · rw [hsame]; exact hclean
    · have hnone := hclean (roomId, room) (SMap.get?_mem hroom)
      rw [hgs] at hnone
      cases hnone
  | offerDraw roomId socketId odId =>
    show ∀ q ∈ (Handlers.offerDraw st₀ roomId socketId odId).2.rooms,
      (q : String × Room).2.gameState = none
    rw [Handlers.offerDraw_rooms]
    exact hclean
  | acceptDraw roomId socketId odId now =>
    show ∀ q ∈ (Handlers.acceptDraw st₀ roomId socketId odId now).2.rooms,
      (q : String × Room).2.gameState = none
    rcases Handlers.acceptDraw_rooms st₀ roomId socketId odId now with
      hsame | hdraw
    · rw [hsame]; exact hclean
    · rw [hdraw]
      rcases hc : RoomManager.drawGame st₀ roomId now with ⟨dres, st1⟩
      rcases RoomManager.drawGame_spec st₀ roomId now dres st1 hc with
        ⟨-, hsame⟩ | ⟨room, gs, hroom, -, hgs, -, -⟩
      · rw [hsame]; exact hclean
      · have hnone := hclean (roomId, room) (SMap.get?_mem hroom)
        rw [hgs] at hnone
        cases hnone
  | declineDraw roomId socketId odId =>
    exact hclean
  | roomKick roomId socketId targetId =>
    exact hclean
  | kickSpectator roomId hostId targetId =>
    rcases hc : RoomManager.kickSpectator st₀ roomId hostId targetId
        with ⟨res, st'⟩
    show ∀ q ∈ (RoomManager.kickSpectator st₀ roomId hostId targetId).2.rooms,
      (q : String × Room).2.gameState = none
    rw [hc]
    rcases RoomManager.kickSpectator_spec st₀ roomId hostId targetId res st' hc
        with ⟨-, hsame, -⟩ | ⟨-, room, hroom, -, -, -, -, hst'⟩
    · rw [hsame]; exact hclean
    · rw [hst', RoomManager.removeUserSession_rooms]
      intro q hq
      rcases SMap.mem_set hq with hq1 | hq1
      · rw [hq1]
        exact hclean (roomId, room) (SMap.get?_mem hroom)
      · exact hclean q hq1
  | setRoomLocked roomId hostId locked now =>
    rcases hc : RoomManager.setRoomLocked st₀ roomId hostId locked now
        with ⟨ok, st'⟩
    show ∀ q ∈ (RoomManager.setRoomLocked st₀ roomId hostId locked
      now).2.rooms, (q : String × Room).2.gameState = none
    rw [hc]
    rcases RoomManager.setRoomLocked_spec st₀ roomId hostId locked now ok st'
        hc with ⟨-, hsame⟩ | ⟨-, room, hroom, -, hst'⟩
    · rw [hsame]; exact hclean
    · rw [hst']
      intro q hq
      rcases SMap.mem_set hq with hq1 | hq1
      · rw [hq1]
        exact hclean (roomId, room) (SMap.get?_mem hroom)
      · exact hclean q hq1
  | updateRoomSettings roomId hostId settings now =>
    rcases hc : RoomManager.updateRoomSettings st₀ roomId hostId settings now
        with ⟨ok, st'⟩
    show ∀ q ∈ (RoomManager.updateRoomSettings st₀ roomId hostId settings
      now).2.rooms, (q : String × Room).2.gameState = none
    rw [hc]
    rcases RoomManager.updateRoomSettings_spec st₀ roomId hostId settings now
        ok st' hc with ⟨-, hsame⟩ | ⟨-, room, hroom, -, hst'⟩
    · rw [hsame]; exact hclean
    · rw [hst']
      intro q hq
      rcases SMap.mem_set hq with hq1 | hq1
      · rw [hq1]
        exact hclean (roomId, room) (SMap.get?_mem hroom)
      · exact hclean q hq1

/-- **C3.** A join succeeds only on an existing room that is waiting for a
player, allows joins, is not locked, has no opponent, and whose host differs
from the joiner; on success the opponent slot and name are set, the room moves
to in_progress, the game is created with the initial clocks of the room's time
control, the returned color is black, and afterwards the host resolves to
white and the opponent to black; a failed join changes nothing; and a join is
the only operation that can make a game appear in a game-free state. -/
theorem C3_join_guards_and_game_creation (st : ServerState)
    (roomId playerId playerName : String) (odId : Option String) (now : Nat)
    (res : Option (Room × PlayerColor)) (st' : ServerState)
    (heq : RoomManager.joinRoom st roomId playerId playerName odId now
      = (res, st')) :
    (∀ roomRes color, res = some (roomRes, color) →
      ∃ room, SMap.get? st.rooms roomId = some room ∧
        room.state = .waiting_for_player ∧
        room.settings.allowJoin = true ∧
        room.settings.isLocked = false ∧
        room.opponentId = none ∧
        room.hostId ≠ odId.getD playerId ∧
        color = PlayerColor.black ∧
        roomRes.opponentId = some (odId.getD playerId) ∧
        roomRes.state = .in_progress ∧
        roomRes.gameState = some (ChessEngine.createInitialGameState
          room.settings.timeControl now) ∧
        (ChessEngine.createInitialGameState room.settings.timeControl
          now).whiteTime = room.settings.timeControl.map
            (fun t => (t.initial : Int) * 1000) ∧
        (ChessEngine.createInitialGameState room.settings.timeControl
          now).blackTime = room.settings.timeControl.map
            (fun t => (t.initial : Int) * 1000) ∧
        SMap.get? st'.rooms roomId = some roomRes ∧
        RoomManager.getPlayerColor st' roomId room.hostId
          = some PlayerColor.white ∧
        RoomManager.getPlayerColor st' roomId (odId.getD playerId)
          = some PlayerColor.black) ∧
    (res = none → st' = st) ∧
    (∀ (lib : ChessLib) (op : Op) (st₀ : ServerState),
      (∀ p ∈ st₀.rooms, (p : String × Room).2.gameState = none) →
      (∃ q ∈ (Op.step lib st₀ op).rooms,
        (q : String × Room).2.gameState.isSome = true) →
      Op.isJoin op) := by
  refine ⟨?_, ?_, ?_⟩
  · intro roomRes color hres
    rcases RoomManager.joinRoom_spec st roomId playerId playerName odId now res
        st' heq with ⟨hnone, -⟩ | ⟨room, hroom, hstate, hopp, hhost, hjoin,
          hlock, hresEq, hrooms⟩
    · rw [hnone] at hres
      cases hres
    · rw [hresEq] at hres
      have hfst : roomRes = { room with
          opponentId := some (odId.getD playerId),
          opponentName := some playerName,
          state := .in_progress,
          lastActivity := now,
          gameState := some (ChessEngine.createInitialGameState
            room.settings.timeControl now) } := by
        cases hres
        rfl
      have hsnd : color = PlayerColor.black := by
        cases hres
        rfl
      have hget : SMap.get? st'.rooms roomId = some roomRes := by
        rw [hrooms, hfst]
        exact SMap.get?_set_self _ _ _
      refine ⟨room, hroom, hstate, hjoin, hlock, hopp, fun hcon => hhost hcon,
        hsnd, ?_, ?_, ?_, rfl, rfl, hget, ?_, ?_⟩
      · rw [hfst]
      · rw [hfst]
      · rw [hfst]
      · unfold RoomManager.getPlayerColor
        have hget2 : SMap.get? st'.rooms roomId = some ({ room with
            opponentId := some (odId.getD playerId),
            opponentName := some playerName,
            state := .in_progress,
            lastActivity := now,
            gameState := some (ChessEngine.createInitialGameState
              room.settings.timeControl now) }) := by
          rw [hrooms]
          exact SMap.get?_set_self _ _ _
        simp only [hget2]
        rw [if_pos trivial]
      · unfold RoomManager.getPlayerColor
        have hget2 : SMap.get? st'.rooms roomId = some ({ room with
            opponentId := some (odId.getD playerId),
            opponentName := some playerName,
            state := .in_progress,
            lastActivity := now,
            gameState := some (ChessEngine.createInitialGameState
              room.settings.timeControl now) }) := by
          rw [hrooms]
          exact SMap.get?_set_self _ _ _
        simp only [hget2]
        rw [if_neg hhost, if_pos trivial]
  · intro hnone
    rcases RoomManager.joinRoom_spec st roomId playerId playerName odId now res
        st' heq with ⟨-, hsame⟩ | ⟨room, -, -, -, -, -, -, hresEq, -⟩
    · exact hsame
    · rw [hresEq] at hnone
      cases hnone
  · intro lib op st₀ hclean hex
    by_contra hnj
    rcases hex with ⟨q, hq, hsome⟩
    rw [step_no_new_game lib st₀ op hclean hnj q hq] at hsome
    cases hsome

/-- The server state after host `H3` creates room `R3`. -/
def c3st0 : ServerState :=
  (RoomManager.createRoom ServerState.init "R3" "H3" "Host" {} none 0).2

/-- Witness for C3: `O3` joins the freshly created room `R3`; the join is
accepted and all the guarantees of the join theorem hold there. -/
theorem C3_witness :
    ((∀ roomRes color,
      (RoomManager.joinRoom c3st0 "R3" "O3" "Opp" none 7).1
        = some (roomRes, color) →
      ∃ room, SMap.get? c3st0.rooms "R3" = some room ∧
        room.state = .waiting_for_player ∧
        room.settings.allowJoin = true ∧
        room.settings.isLocked = false ∧
        room.opponentId = none ∧
        room.hostId ≠ (none : Option String).getD "O3" ∧
        color = PlayerColor.black ∧
        roomRes.opponentId = some ((none : Option String).getD "O3") ∧
        roomRes.state = .in_progress ∧
        roomRes.gameState = some (ChessEngine.createInitialGameState
          room.settings.timeControl 7) ∧
        (ChessEngine.createInitialGameState room.settings.timeControl
          7).whiteTime = room.settings.timeControl.map
            (fun t => (t.initial : Int) * 1000) ∧
        (ChessEngine.createInitialGameState room.settings.timeControl
          7).blackTime = room.settings.timeControl.map
            (fun t => (t.initial : Int) * 1000) ∧
        SMap.get? (RoomManager.joinRoom c3st0 "R3" "O3" "Opp" none
          7).2.rooms "R3" = some roomRes ∧
        RoomManager.getPlayerColor (RoomManager.joinRoom c3st0 "R3" "O3"
          "Opp" none 7).2 "R3" room.hostId = some PlayerColor.white ∧
        RoomManager.getPlayerColor (RoomManager.joinRoom c3st0 "R3" "O3"
          "Opp" none 7).2 "R3" ((none : Option String).getD "O3")
          = some PlayerColor.black) ∧
    ((RoomManager.joinRoom c3st0 "R3" "O3" "Opp" none 7).1 = none →
      (RoomManager.joinRoom c3st0 "R3" "O3" "Opp" none 7).2 = c3st0) ∧
    (∀ (lib : ChessLib) (op : Op) (st₀ : ServerState),
      (∀ p ∈ st₀.rooms, (p : String × Room).2.gameState = none) →
      (∃ q ∈ (Op.step lib st₀ op).rooms,
        (q : String × Room).2.gameState.isSome = true) →
      Op.isJoin op)) ∧
    ((RoomManager.joinRoom c3st0 "R3" "O3" "Opp" none 7).1).isSome = true :=
  ⟨C3_join_guards_and_game_creation c3st0 "R3" "O3" "Opp" none 7 _ _ rfl, rfl⟩

/-- **C8.** In every reachable state, an in-progress room has a non-null
opponent distinct from its host and an embedded game with active status; and
a room whose game status is no longer active is finished, and every move
request against it fails.  Reachability quantifies over all operations, so
every operation preserves this coupling of room state and game status. -/
theorem C8_room_game_coupling (lib : ChessLib) (st : ServerState)
    (hreach : Reachable lib st) :
    ∀ rid room, SMap.get? st.rooms rid = some room →
      (room.state = .in_progress →
        (∃ oid, room.opponentId = some oid ∧ oid ≠ room.hostId) ∧
        (∃ gs, room.gameState = some gs ∧ gs.status = .active)) ∧
      (∀ gs, room.gameState = some gs → gs.status ≠ .active →
        room.state = .finished ∧
        ∀ socketId fromSq toSq promotion odId now,
          (RoomManager.makeMove lib st rid socketId fromSq toSq promotion
            odId now).1.success = false) := by
  intro rid room hroom
  have hinv := reachable_roomInvariant lib st hreach
  have hgood := hinv.lookup hroom
  refine ⟨hgood.1, ?_⟩
  intro gs hgs hact
  have hfin := hgood.2 gs hgs hact
  refine ⟨hfin, ?_⟩
  intro socketId fromSq toSq promotion odId now
  refine RoomManager.makeMove_not_in_progress lib st rid socketId fromSq toSq
    promotion odId now room hroom ?_
  rw [hfin]
  intro hc
  cases hc

/-- A reachable state for the C8 witness: room `R8` is created, joined, and
then resigned by the host, so it holds a finished room with a resigned game. -/
def c8st : ServerState :=
  Op.step testLib
    (Op.step testLib
      (Op.step testLib ServerState.init
        (Op.createRoom "R8" "H8" "Host" {} none 0))
      (Op.joinRoom "R8" "O8" "Opp" none 0))
    (Op.resign "R8" "H8" none 3)

/-- Witness for C8: the coupling holds at the reachable state `c8st`, whose
room `R8` is concretely finished with a resigned game. -/
theorem C8_witness :
    (∀ rid room, SMap.get? c8st.rooms rid = some room →
      (room.state = .in_progress →
        (∃ oid, room.opponentId = some oid ∧ oid ≠ room.hostId) ∧
        (∃ gs, room.gameState = some gs ∧ gs.status = .active)) ∧
      (∀ gs, room.gameState = some gs → gs.status ≠ .active →
        room.state = .finished ∧
        ∀ socketId fromSq toSq promotion odId now,
          (RoomManager.makeMove testLib c8st rid socketId fromSq toSq
            promotion odId now).1.success = false)) ∧
    (SMap.get? c8st.rooms "R8").map (fun r => r.state)
      = some RoomState.finished ∧
    ((SMap.get? c8st.rooms "R8").bind (fun r => r.gameState)).map
      (fun gs => gs.status) = some GameStatus.resigned :=
  ⟨C8_room_game_coupling testLib c8st
      (Reachable.step _ _ (Reachable.step _ _
        (Reachable.step _ _ Reachable.init))),
    rfl, rfl⟩
